import Mathlib

/-!
Verification development for the transactional state manager, diff engine and
retry-bounded pipeline of the `junit-agent-langgraph` repository.

The Python state values (`ProjectState` and its nested records are TypedDicts,
i.e. plain dictionaries at runtime) are embedded as a JSON-like inductive
value type `JVal`; dictionaries are association lists with distinct keys
(a Python `dict` cannot hold a duplicate key, so association lists with
duplicate keys represent no Python value).  Machine-level details that no
statement below depends on are modelled as follows: `copy.deepcopy` is the
identity (values are immutable here), `datetime.now()` timestamps are dropped,
and `hashlib.sha256(s).hexdigest()` is modelled by the string `s` itself (the
development only ever uses hash equality that follows from equality of the
serialized input, never hash collisions or concrete digests).
-/

/-- JSON-like runtime values of the Python state dictionaries.
`obj` stands for a non-serializable live object exposing `model_dump()`
(a LangChain message); its argument is the value of `model_dump()`. -/
inductive JVal where
  | null : JVal
  | bool (b : Bool) : JVal
  | int (n : Int) : JVal
  | str (s : String) : JVal
  | list (xs : List JVal) : JVal
  | dict (kvs : List (String × JVal)) : JVal
  | obj (dump : JVal) : JVal

mutual

/-- Structural boolean equality on values. -/
def JVal.beq : JVal → JVal → Bool
  | .null, .null => true
  | .bool a, .bool b => a == b
  | .int a, .int b => a == b
  | .str a, .str b => a == b
  | .list xs, .list ys => JVal.beqList xs ys
  | .dict a, .dict b => JVal.beqPairs a b
  | .obj a, .obj b => JVal.beq a b
  | _, _ => false

def JVal.beqList : List JVal → List JVal → Bool
  | [], [] => true
  | x :: xs, y :: ys => JVal.beq x y && JVal.beqList xs ys
  | _, _ => false

def JVal.beqPairs : List (String × JVal) → List (String × JVal) → Bool
  | [], [] => true
  | (k, v) :: xs, (k', v') :: ys => k == k' && JVal.beq v v' && JVal.beqPairs xs ys
  | _, _ => false

end

/-- Size-based induction principle for the nested inductive `JVal`. -/
theorem JVal.inductionOn (P : JVal → Prop)
    (hnull : P .null)
    (hbool : ∀ b, P (.bool b))
    (hint : ∀ n, P (.int n))
    (hstr : ∀ s, P (.str s))
    (hlist : ∀ xs, (∀ x ∈ xs, P x) → P (.list xs))
    (hdict : ∀ kvs : List (String × JVal), (∀ kv ∈ kvs, P kv.2) → P (.dict kvs))
    (hobj : ∀ d, P d → P (.obj d)) : ∀ v, P v := by
  have H : ∀ n v, sizeOf v ≤ n → P v := by
    intro n
    induction n with
    | zero =>
      intro v hv
      exfalso
      cases v <;> simp at hv
    | succ n ih =>
      intro v hv
      cases v with
      | null => exact hnull
      | bool b => exact hbool b
      | int m => exact hint m
      | str s => exact hstr s
      | list xs =>
        refine hlist xs (fun x hx => ih x ?_)
        have h1 := List.sizeOf_lt_of_mem hx
        simp only [JVal.list.sizeOf_spec] at hv
        omega
      | dict kvs =>
        refine hdict kvs (fun kv hkv => ih kv.2 ?_)
        have h1 := List.sizeOf_lt_of_mem hkv
        obtain ⟨k, v⟩ := kv
        simp only [JVal.dict.sizeOf_spec] at hv
        simp only [Prod.mk.sizeOf_spec] at h1
        simp only []
        omega
      | obj d =>
        refine hobj d (ih d ?_)
        simp only [JVal.obj.sizeOf_spec] at hv
        omega
  exact fun v => H (sizeOf v) v le_rfl

theorem JVal.beqList_iff (xs ys : List JVal)
    (h : ∀ x ∈ xs, ∀ y, JVal.beq x y = true ↔ x = y) :
    JVal.beqList xs ys = true ↔ xs = ys := by
  induction xs generalizing ys with
  | nil => cases ys <;> simp [JVal.beqList]
  | cons x xs ih =>
    cases ys with
    | nil => simp [JVal.beqList]
    | cons y ys =>
      simp only [JVal.beqList, Bool.and_eq_true]
      rw [h x (by simp) y, ih ys (fun a ha => h a (by simp [ha]))]
      simp

theorem JVal.beqPairs_iff (xs ys : List (String × JVal))
    (h : ∀ kv ∈ xs, ∀ y, JVal.beq kv.2 y = true ↔ kv.2 = y) :
    JVal.beqPairs xs ys = true ↔ xs = ys := by
  induction xs generalizing ys with
  | nil => cases ys <;> simp [JVal.beqPairs]
  | cons x xs ih =>
    cases ys with
    | nil => obtain ⟨k, v⟩ := x; simp [JVal.beqPairs]
    | cons y ys =>
      obtain ⟨k, v⟩ := x
      obtain ⟨k', v'⟩ := y
      simp only [JVal.beqPairs, Bool.and_eq_true]
      rw [h (k, v) (by simp) v', ih ys (fun a ha => h a (by simp [ha]))]
      simp [beq_iff_eq, and_assoc]

theorem JVal.beq_iff : ∀ a b : JVal, JVal.beq a b = true ↔ a = b := by
  intro a
  induction a using JVal.inductionOn with
  | hnull => intro b; cases b <;> simp [JVal.beq]
  | hbool x => intro b; cases b <;> simp [JVal.beq]
  | hint x => intro b; cases b <;> simp [JVal.beq]
  | hstr x => intro b; cases b <;> simp [JVal.beq]
  | hlist xs ih =>
    intro b
    cases b <;> simp [JVal.beq]
    exact JVal.beqList_iff xs _ ih
  | hdict kvs ih =>
    intro b
    cases b <;> simp [JVal.beq]
    exact JVal.beqPairs_iff kvs _ ih
  | hobj d ih =>
    intro b
    cases b <;> simp [JVal.beq]
    exact ih _

instance : DecidableEq JVal := fun a b =>
  decidable_of_iff (JVal.beq a b = true) (JVal.beq_iff a b)

/-- A Python dictionary with string keys: an association list (keys distinct). -/
abbrev StateDict := List (String × JVal)

/-- Lookup of `d[k]` / `d.get(k)`: first matching key. -/
def dget (d : StateDict) (k : String) : Option JVal :=
  match d with
  | [] => none
  | (k', v) :: rest => if k' = k then some v else dget rest k

/-- Python `d.get(k, default)`. -/
def dgetD (d : StateDict) (k : String) (default : JVal) : JVal :=
  (dget d k).getD default

/-- Python `d[k] = v`: replace the value in place if the key exists
(keeping its position), otherwise append the new key at the end. -/
def dset (d : StateDict) (k : String) (v : JVal) : StateDict :=
  match d with
  | [] => [(k, v)]
  | (k', v') :: rest => if k' = k then (k', v) :: rest else (k', v') :: dset rest k v

/-- Python `d.pop(k, None)`: the dictionary without key `k`. -/
def dpop (d : StateDict) (k : String) : StateDict :=
  d.filter (fun kv => kv.1 ≠ k)

/-- The keys of a dictionary. -/
def dkeys (d : StateDict) : List String :=
  d.map Prod.fst

/-- Python truthiness of a value (`if v:`). -/
def JVal.truthy : JVal → Bool
  | .null => false
  | .bool b => b
  | .int n => n != 0
  | .str s => s ≠ ""
  | .list xs => ¬ xs.isEmpty
  | .dict kvs => ¬ kvs.isEmpty
  | .obj _ => true

/-- Numeric reading of a value; Python `bool` is an `int` subtype.  Arithmetic
or comparison on any other type raises `TypeError` in Python; those inputs are
outside every statement below and read as `0`. -/
def asInt : JVal → Int
  | .int n => n
  | .bool b => if b then 1 else 0
  | _ => 0

/-- Lexicographic comparison of character lists by code point (a structural
stand-in for the string order used when Python sorts keys). -/
def charListLeb : List Char → List Char → Bool
  | [], _ => true
  | _ :: _, [] => false
  | a :: as, b :: bs =>
    if a.toNat < b.toNat then true
    else if b.toNat < a.toNat then false
    else charListLeb as bs

/-- Lexicographic string order on the underlying characters. -/
def strLe (a b : String) : Prop :=
  charListLeb a.data b.data = true

instance : DecidableRel strLe := fun a b =>
  inferInstanceAs (Decidable (charListLeb a.data b.data = true))

theorem charListLeb_total (x y : List Char) :
    charListLeb x y = true ∨ charListLeb y x = true := by
  induction x generalizing y with
  | nil => left; rfl
  | cons a as ih =>
    cases y with
    | nil => right; rfl
    | cons b bs =>
      rcases Nat.lt_trichotomy a.toNat b.toNat with hab | hab | hab
      · left; simp [charListLeb, hab]
      · rcases ih bs with hc | hc
        · left; simp [charListLeb, hab, hc]
        · right; simp [charListLeb, hab.symm, hc]
      · right; simp [charListLeb, hab]

theorem charListLeb_trans (x y z : List Char) (hxy : charListLeb x y = true)
    (hyz : charListLeb y z = true) : charListLeb x z = true := by
  induction x generalizing y z with
  | nil => rfl
  | cons a as ih =>
    cases y with
    | nil => simp [charListLeb] at hxy
    | cons b bs =>
      cases z with
      | nil => simp [charListLeb] at hyz
      | cons c cs =>
        simp only [charListLeb] at hxy hyz ⊢
        by_cases hab : a.toNat < b.toNat
        · by_cases hcb : c.toNat < b.toNat
          · by_cases hbc : b.toNat < c.toNat
            · rw [if_pos (by omega)]
            · rw [if_neg hbc, if_pos hcb] at hyz
              exact absurd hyz (by simp)
          · rw [if_pos (by omega)]
        · by_cases hba : b.toNat < a.toNat
          · rw [if_neg hab, if_pos hba] at hxy
            exact absurd hxy (by simp)
          · rw [if_neg hab, if_neg hba] at hxy
            by_cases hbc : b.toNat < c.toNat
            · rw [if_pos (by omega)]
            · by_cases hcb : c.toNat < b.toNat
              · rw [if_neg hbc, if_pos hcb] at hyz
                exact absurd hyz (by simp)
              · rw [if_neg hbc, if_neg hcb] at hyz
                rw [if_neg (by omega), if_neg (by omega)]
                exact ih bs cs hxy hyz

theorem char_toNat_inj (a b : Char) (h : a.toNat = b.toNat) : a = b := by
  have hv : a.val = b.val := UInt32.toNat.inj h
  exact Char.ext hv

theorem charListLeb_antisymm (x y : List Char) (hxy : charListLeb x y = true)
    (hyx : charListLeb y x = true) : x = y := by
  induction x generalizing y with
  | nil =>
    cases y with
    | nil => rfl
    | cons b bs => simp [charListLeb] at hyx
  | cons a as ih =>
    cases y with
    | nil => simp [charListLeb] at hxy
    | cons b bs =>
      simp only [charListLeb] at hxy hyx
      by_cases hab : a.toNat < b.toNat
      · rw [if_neg (by omega), if_pos (by omega)] at hyx
        exact absurd hyx (by simp)
      · by_cases hba : b.toNat < a.toNat
        · rw [if_neg hab, if_pos hba] at hxy
          exact absurd hxy (by simp)
        · rw [if_neg hab, if_neg hba] at hxy
          rw [if_neg hba, if_neg hab] at hyx
          rw [char_toNat_inj a b (by omega), ih bs hxy hyx]

instance : IsTotal String strLe :=
  ⟨fun a b => charListLeb_total a.data b.data⟩

instance : IsTrans String strLe :=
  ⟨fun a b c => charListLeb_trans a.data b.data c.data⟩

instance : IsAntisymm String strLe :=
  ⟨fun a b hab hba => by
    have hd := charListLeb_antisymm a.data b.data hab hba
    cases a
    cases b
    exact congrArg String.mk hd⟩

mutual

/-- Canonical form of a value: dictionaries are key-sorted recursively.  Two
Python values compare equal with `==` exactly when their canonical forms are
equal (Python dictionaries are unordered; the numeric identification
`True == 1` is not modelled, as no compared record mixes booleans and
integers). -/
def canon : JVal → JVal
  | .null => .null
  | .bool b => .bool b
  | .int n => .int n
  | .str s => .str s
  | .list xs => .list (canonList xs)
  | .dict kvs => .dict ((canonPairs kvs).insertionSort (fun a b => strLe a.1 b.1))
  | .obj d => .obj (canon d)

def canonList : List JVal → List JVal
  | [] => []
  | x :: xs => canon x :: canonList xs

def canonPairs : List (String × JVal) → List (String × JVal)
  | [] => []
  | (k, v) :: rest => (k, canon v) :: canonPairs rest

end

/-- Python `==` on state values (and `¬ pyEq` is `!=`). -/
def pyEq (a b : JVal) : Bool :=
  canon a = canon b

theorem pyEq_refl (a : JVal) : pyEq a a = true := by
  simp [pyEq]

theorem pyEq_symm (a b : JVal) : pyEq a b = pyEq b a := by
  simp only [pyEq]
  by_cases h : canon a = canon b <;> simp [h, eq_comm]

mutual

/-- Serialization of an already-canonical value.  `json.dumps(·, sort_keys=True)`
is modelled as `jsonDumps = jsonDumpsRaw ∘ canon` (key-sorting at every level).
Exact escaping inside string literals is not reproduced; no statement below
reads the characters of a dump, only equalities between dumps of equal inputs. -/
def jsonDumpsRaw : JVal → String
  | .null => "null"
  | .bool b => if b then "true" else "false"
  | .int n => toString n
  | .str s => "\"" ++ s ++ "\""
  | .list xs => "[" ++ jsonDumpsRawList xs ++ "]"
  | .dict kvs => "\x7b" ++ jsonDumpsRawPairs kvs ++ "\x7d"
  | .obj d => "\"" ++ jsonDumpsRaw d ++ "\""

def jsonDumpsRawList : List JVal → String
  | [] => ""
  | [x] => jsonDumpsRaw x
  | x :: xs => jsonDumpsRaw x ++ ", " ++ jsonDumpsRawList xs

def jsonDumpsRawPairs : List (String × JVal) → String
  | [] => ""
  | [(k, v)] => "\"" ++ k ++ "\": " ++ jsonDumpsRaw v
  | (k, v) :: kvs => "\"" ++ k ++ "\": " ++ jsonDumpsRaw v ++ ", " ++ jsonDumpsRawPairs kvs

end

/-- `json.dumps(v, sort_keys=True)`.  A live `obj` has no JSON encoding: with
`default=str` (as in `calculate_state_hash`) it is dumped as a string; the
plain `json.dumps` used on snapshot data only ever runs after
`_make_serializable`, which has removed the live objects reachable there. -/
def jsonDumps (v : JVal) : String :=
  jsonDumpsRaw (canon v)

/-- Python `str(v)`.  The exact `repr`-style text is not reproduced; no
statement below depends on the characters of the result. -/
def pyStr (v : JVal) : String :=
  jsonDumps v

/-- One element of the `messages` list under `_make_serializable`:
`msg.model_dump() if hasattr(msg, 'model_dump') else str(msg)`. -/
def serializeMsg : JVal → JVal
  | .obj d => d
  | v => .str (pyStr v)

/-- `_make_serializable`: deep copy (the identity here) that flattens the
`messages` list, when present, element by element.  A present non-list
`messages` value would be iterated (or raise `TypeError`) in Python; no
statement below has a non-list `messages`. -/
def make_serializable (d : StateDict) : StateDict :=
  match dget d "messages" with
  | some (.list ms) => dset d "messages" (.list (ms.map serializeMsg))
  | _ => d

/-- `hashlib.sha256(json.dumps(d, sort_keys=True).encode()).hexdigest()`,
with the digest modelled by the serialized string itself. -/
def stateChecksum (d : StateDict) : String :=
  jsonDumps (.dict d)

/-- `StateSnapshot` (the `datetime.now()` timestamp is dropped). -/
structure StateSnapshot where
  state_data : StateDict
  checksum : String
  operation : String
deriving DecidableEq

/-- `StateSnapshot.__post_init__`: an empty checksum is recomputed from the
serialized state data. -/
def mkSnapshot (state_data : StateDict) (checksum : String) (operation : String) :
    StateSnapshot :=
  if checksum = "" then ⟨state_data, stateChecksum state_data, operation⟩
  else ⟨state_data, checksum, operation⟩

/-- `StateTransaction`. -/
structure StateTransaction where
  operation : String
  before_snapshot : StateSnapshot
  after_snapshot : Option StateSnapshot
  success : Bool
  error : Option String
deriving DecidableEq

/-- The `StateManager` instance state: live state slot (Python `None` is
`none`; note a rolled-back empty dictionary is `some []`, distinct from
`none`), snapshot ring, transaction history, ring capacity. -/
structure StateManager where
  current_state : Option StateDict
  snapshots : List StateSnapshot
  transactions : List StateTransaction
  max_snapshots : Nat
deriving DecidableEq

/-- A fresh `StateManager()`. -/
def StateManager.init : StateManager :=
  ⟨none, [], [], 10⟩

/-- `get_state`: `copy.deepcopy(self._current_state) if self._current_state
else None` — an empty live dictionary is falsy and reads as `None`. -/
def get_state (sm : StateManager) : Option StateDict :=
  match sm.current_state with
  | some d => if d.isEmpty then none else some d
  | none => none

/-- `_create_snapshot`: for a truthy live state, append a snapshot of its
serializable form (evicting the oldest past capacity) and return it; for a
falsy live state (`None` or `{}`) return an empty snapshot without appending. -/
def create_snapshot (sm : StateManager) (operation : String) :
    StateSnapshot × StateManager :=
  match sm.current_state with
  | some d =>
    if d.isEmpty then (mkSnapshot [] "" operation, sm)
    else
      let sd := make_serializable d
      let snap := mkSnapshot sd (stateChecksum sd) operation
      let snaps := sm.snapshots ++ [snap]
      let snaps := if snaps.length > sm.max_snapshots then snaps.tail else snaps
      (snap, { sm with snapshots := snaps })
  | none => (mkSnapshot [] "" operation, sm)

/-- The required top-level `ProjectState` fields checked by `_validate_state`. -/
def requiredStateFields : List String :=
  ["project_path", "project_name", "java_classes", "test_classes", "dependencies",
   "build_status"]

/-- The required `JavaClassState` fields checked by `_validate_java_class_state`. -/
def requiredClassFields : List String :=
  ["name", "file_path", "fields", "methods", "imports"]

/-- First field of `fields` absent from `d`, in order. -/
def firstMissing (d : StateDict) (fields : List String) : Option String :=
  fields.find? (fun f => (dget d f).isNone)

/-- Whether a value is a Python `list`. -/
def isList : JVal → Bool
  | .list _ => true
  | _ => false

/-- `_validate_java_class_state`. -/
def validate_java_class_state (jc : JVal) (path : String) : Except String Unit :=
  match jc with
  | .dict d =>
    match firstMissing d requiredClassFields with
    | some f => .error (path ++ " missing required field: " ++ f)
    | none =>
      if ¬ (dgetD d "file_path" .null).truthy then
        .error (path ++ " cannot have empty file_path")
      else if (dgetD d "fields" .null).truthy ∧ ¬ isList (dgetD d "fields" .null) then
        .error (path ++ ".fields must be a list")
      else if (dgetD d "methods" .null).truthy ∧ ¬ isList (dgetD d "methods" .null) then
        .error (path ++ ".methods must be a list")
      else if (dgetD d "imports" .null).truthy ∧ ¬ isList (dgetD d "imports" .null) then
        .error (path ++ ".imports must be a list")
      else .ok ()
  | _ => .error (path ++ " must be a dictionary")

/-- The `enumerate` loop over `java_classes` inside `_validate_state`. -/
def validateClasses : List JVal → Nat → Except String Unit
  | [], _ => .ok ()
  | c :: rest, idx =>
    match validate_java_class_state c ("java_classes[" ++ toString idx ++ "]") with
    | .error e => .error e
    | .ok _ => validateClasses rest (idx + 1)

/-- `_validate_state`.  The input is already a dictionary here, so the
`isinstance(state, dict)` arm cannot fire; `if not state` catches the falsy
(empty) dictionary.  A truthy non-list `java_classes` would be iterated
element-wise in Python (or raise `TypeError`); no statement below has one. -/
def validate_state (s : StateDict) : Except String Unit :=
  if s.isEmpty then .error "State cannot be None"
  else
    match firstMissing s requiredStateFields with
    | some f => .error ("State missing required field: " ++ f)
    | none =>
      match dget s "java_classes" with
      | some (.list cs) => validateClasses cs 0
      | _ => .ok ()

/-- `set_state`: validate, then deep-copy into the live slot and snapshot.
The pair returns the raised error (if any) together with the manager after
the call; validation precedes every mutation in the source, so on error the
manager is returned unchanged. -/
def set_state (sm : StateManager) (s : StateDict) :
    Except String Unit × StateManager :=
  match validate_state s with
  | .error e => (.error e, sm)
  | .ok _ =>
    let sm1 := { sm with current_state := some s }
    (.ok (), (create_snapshot sm1 "set_state").2)

/-- `begin_transaction`: snapshot the current state and hand out a transaction
with `success=False`. -/
def begin_transaction (sm : StateManager) (operation : String) :
    StateTransaction × StateManager :=
  (⟨operation, (create_snapshot sm operation).1, none, false, none⟩,
   (create_snapshot sm operation).2)

/-- `commit_transaction`: record an after snapshot, mark success, append to
the history. -/
def commit_transaction (sm : StateManager) (tx : StateTransaction) : StateManager :=
  { (create_snapshot sm tx.operation).2 with
    transactions := (create_snapshot sm tx.operation).2.transactions ++
      [{ tx with
          after_snapshot := some (create_snapshot sm tx.operation).1
          success := true }] }

/-- `rollback_transaction`.  The Python guard `if transaction.before_snapshot:`
is always true — `begin_transaction` always sets a snapshot object and a
dataclass instance is truthy — so the restore is unconditional; it then pops
the most recent snapshot when more than one is held. -/
def rollback_transaction (sm : StateManager) (tx : StateTransaction)
    (error : Option String) : StateManager :=
  let sm1 := { sm with
    current_state := some tx.before_snapshot.state_data,
    transactions := sm.transactions ++ [{ tx with success := false, error := error }] }
  if sm1.snapshots.length > 1 then { sm1 with snapshots := sm1.snapshots.dropLast }
  else sm1

/-- `execute_with_rollback`.  The stage function acts on the manager and
either returns a result or raises an exception of type `ε` (carrying the
manager as mutated so far); `excStr` is Python's `str(e)`.  The optional
`on_error` callback only observes the exception and is omitted.  The result
pairs what the call returns (or re-raises) with the manager afterwards. -/
def execute_with_rollback {α ε : Type} (excStr : ε → String) (sm : StateManager)
    (operation : String) (func : StateManager → Except ε α × StateManager) :
    Except ε α × StateManager :=
  match func (begin_transaction sm operation).2 with
  | (.ok result, sm2) =>
    (.ok result, commit_transaction sm2 (begin_transaction sm operation).1)
  | (.error e, sm2) =>
    (.error e, rollback_transaction sm2 (begin_transaction sm operation).1
      (some (excStr e)))

/-- The filesystem as seen by `verify_state_consistency`: existence and
modification time per path.  Python compares float mtimes only through
`abs(current - expected) > 1`; times are modelled in whole seconds. -/
structure FSModel where
  pathExists : String → Bool
  mtime : String → Int

/-- The two result shapes of `verify_state_consistency`: the early
`{"consistent": False, "error": ...}` dictionaries, and the full
`{"consistent": ..., "issues": ..., "warnings": ...}` report. -/
inductive ConsistencyResult where
  | errorReport (error : String)
  | report (consistent : Bool) (issues : List String) (warnings : List String)
deriving DecidableEq

/-- The issue contributed by one `java_classes` entry: a truthy `file_path`
that no longer exists on disk.  A non-dict entry or a truthy non-string
`file_path` would raise in Python; no statement below has one. -/
def classIssue (fs : FSModel) (jc : JVal) : Option String :=
  match jc with
  | .dict d =>
    match dget d "file_path" with
    | some (.str f) =>
      if f = "" then none
      else if fs.pathExists f then none
      else some ("Java file in state not found on filesystem: " ++ f)
    | _ => none
  | _ => none

/-- The warning contributed by one `java_classes` entry: an existing file
whose recorded `last_modified` (truthy, hence nonzero) has drifted by more
than one second. -/
def classWarning (fs : FSModel) (jc : JVal) : Option String :=
  match jc with
  | .dict d =>
    match dget d "file_path" with
    | some (.str f) =>
      if f = "" then none
      else if ¬ fs.pathExists f then none
      else
        match dget d "last_modified" with
        | some (.int m) =>
          if m ≠ 0 ∧ 1 < |fs.mtime f - m| then
            some ("File modified since state was cached: " ++ f)
          else none
        | _ => none
    | _ => none
  | _ => none

/-- `verify_state_consistency`. -/
def verify_state_consistency (fs : FSModel) (sm : StateManager) : ConsistencyResult :=
  match sm.current_state with
  | none => .errorReport "No state loaded"
  | some st =>
    if st.isEmpty then .errorReport "No state loaded"
    else
      match dget st "project_path" with
      | some (.str p) =>
        if p = "" then .errorReport "No project path in state"
        else if ¬ fs.pathExists p then
          .report false ["Project directory does not exist: " ++ p] []
        else
          let classes := match dgetD st "java_classes" (.list []) with
            | .list cs => cs
            | _ => []
          let issues := classes.filterMap (classIssue fs)
          let warnings := classes.filterMap (classWarning fs)
          .report issues.isEmpty issues warnings
      | _ => .errorReport "No project path in state"

/-- `should_validate` routing predicate of the workflow graph.  Reads
`all_tests_passed` (default `True`, tested for truthiness), `retry_count`
(default `0`) and `max_retries` (default `3`). -/
def should_validate (st : StateDict) : String :=
  if (dgetD st "all_tests_passed" (.bool true)).truthy then "project_validator"
  else if asInt (dgetD st "retry_count" (.int 0)) < asInt (dgetD st "max_retries" (.int 3)) then
    "fix_test"
  else "end_failed"

/-- One test-class entry flagged by `should_continue_review`:
`test_class.get("status") in ["needs_fixes", "review_comments"]`.  A non-dict
entry would raise `AttributeError` in Python; no statement below has one. -/
def reviewNeedsWork (tc : JVal) : Bool :=
  match tc with
  | .dict d =>
    match dget d "status" with
    | some v => pyEq v (.str "needs_fixes") || pyEq v (.str "review_comments")
    | none => false
  | _ => false

/-- `should_continue_review` routing predicate: an empty (falsy)
`test_classes` goes straight to validation, otherwise the first flagged test
class routes back to generation.  A truthy non-list `test_classes` would be
iterated element-wise in Python; no statement below has one. -/
def should_continue_review (st : StateDict) : String :=
  let tcs := dgetD st "test_classes" (.list [])
  if ¬ tcs.truthy then "validate_test"
  else
    match tcs with
    | .list l => if l.any reviewNeedsWork then "generate_test" else "validate_test"
    | _ => "validate_test"

/-- Whether one updated test class counts as passed inside
`validate_test_node`: `updated_test.get("status") != "passed"` clears the
flag.  A non-dict entry would raise in Python; no statement below has one. -/
def statusIsPassed (tc : JVal) : Bool :=
  match tc with
  | .dict d => pyEq (dgetD d "status" .null) (.str "passed")
  | _ => false

/-- `validate_test_node` followed by the graph merge of its partial update
`{"test_classes", "test_results", "all_tests_passed", "last_action"}` into
the state.  The per-test agent results are abstracted: `valTests st` is the
list of updated test classes, `valResults st` the merged `test_results`
mapping; `all_tests_passed` is recomputed from the updated statuses exactly
as the node does. -/
def validate_test_update (valTests : StateDict → List JVal)
    (valResults : StateDict → JVal) (st : StateDict) : StateDict :=
  let updated := valTests st
  let all_passed := updated.all statusIsPassed
  dset (dset (dset (dset st "test_classes" (.list updated))
      "test_results" (valResults st))
      "all_tests_passed" (.bool all_passed))
    "last_action" (.str "tests_validated")

/-- `fix_test_node` followed by the graph merge of its partial update
`{"test_classes", "retry_count", "last_action"}`: the fix-agent results are
abstracted as `fixTests st`, and `retry_count` is set to
`state.get("retry_count", 0) + 1`. -/
def fix_test_update (fixTests : StateDict → JVal) (st : StateDict) : StateDict :=
  dset (dset (dset st "test_classes" (fixTests st))
      "retry_count" (.int (asInt (dgetD st "retry_count" (.int 0)) + 1)))
    "last_action" (.str "tests_fixed")

/-- The `validate_test → (fix_test → validate_test)* → terminal` fragment of
the compiled graph, entered at `validate_test`, with explicit fuel (the
theorems below always supply enough).  Returns the number of `fix_test`
passes together with the terminal node chosen by `should_validate`. -/
def run_validate_loop (valTests : StateDict → List JVal)
    (valResults : StateDict → JVal) (fixTests : StateDict → JVal) :
    Nat → StateDict → Nat × String
  | 0, _ => (0, "")
  | fuel + 1, st =>
    let st1 := validate_test_update valTests valResults st
    if should_validate st1 = "fix_test" then
      let r := run_validate_loop valTests valResults fixTests fuel
        (fix_test_update fixTests st1)
      (r.1 + 1, r.2)
    else (0, should_validate st1)

/-- A single change of a diff report. -/
structure DiffChange where
  change_type : String
  component : String
  identifier : String
  old_value : Option JVal
  new_value : Option JVal
  details : Option String
deriving DecidableEq

/-- The summary count map of a diff report. -/
structure DiffSummary where
  added : Nat
  removed : Nat
  modified : Nat
  classes_changed : Nat
  fields_changed : Nat
  methods_changed : Nat
deriving DecidableEq

/-- A diff report (the `datetime.now().isoformat()` timestamp is dropped). -/
structure DiffReport where
  state1_hash : String
  state2_hash : String
  changes : List DiffChange
  summary : DiffSummary
deriving DecidableEq

/-- The four `state_copy.pop(...)` calls of `calculate_state_hash`, in source
order: `messages`, `last_action`, `summary_report`, `retry_count`. -/
def hashPop (st : StateDict) : StateDict :=
  dpop (dpop (dpop (dpop st "messages") "last_action") "summary_report") "retry_count"

/-- `calculate_state_hash`: pop `messages`, `last_action`, `summary_report`
and `retry_count`, then hash the canonical JSON dump (`sort_keys=True`,
`default=str`); the digest is modelled by the dump itself. -/
def calculate_state_hash (st : StateDict) : String :=
  jsonDumps (.dict (hashPop st))

/-- `{c['name']: c for c in xs}`: key the records by name, later entries
winning and the first position kept (Python dict semantics).  An entry
without a string name would raise `KeyError` in Python; no statement below
has one. -/
def keyBy (xs : List JVal) : StateDict :=
  xs.foldl (fun acc c =>
    match c with
    | .dict d =>
      match dget d "name" with
      | some (.str n) => dset acc n c
      | _ => acc
    | _ => acc) []

/-- The name-keyed class map of a state: `{c['name']: c for c in
state.get('java_classes', [])}`. -/
def classesOf (s : StateDict) : StateDict :=
  keyBy (match dgetD s "java_classes" (.list []) with
    | .list cs => cs
    | _ => [])

/-- The name-keyed field or method map of a class record:
`{f['name']: f for f in cls.get(key, [])}`. -/
def subMap (cd : JVal) (key : String) : StateDict :=
  match cd with
  | .dict d =>
    keyBy (match dgetD d key (.list []) with
      | .list xs => xs
      | _ => [])
  | _ => []

/-- The canonical listing of a set of strings: deduplicated and sorted. -/
def sortedKeys (l : List String) : List String :=
  l.dedup.insertionSort strLe

/-- Iteration over a CPython `set` whose elements are those of `l`: the
iteration order is a fixed but unspecified function of the element set alone
(it follows the hash table layout, and string hashing is seed-randomized), so
it is modelled by an arbitrary enumeration function `ord` applied to the
canonical sorted listing of the elements.  `validOrd` states the sole
guarantee Python gives: the iteration enumerates exactly the elements. -/
def pySetSeq (ord : List String → List String) (l : List String) : List String :=
  ord (sortedKeys l)

/-- The contract of a set-iteration order: it permutes the elements. -/
def validOrd (ord : List String → List String) : Prop :=
  ∀ l, (ord l).Perm l

/-- Helper to build one `DiffChange`. -/
def mkChange (t comp ident : String) (ov nv : Option JVal) (det : String) : DiffChange :=
  ⟨t, comp, ident, ov, nv, some det⟩

/-- The `class_names1 - class_names2` loop: removed classes. -/
def removedClassChanges (ord : List String → List String) (c1 c2 : StateDict) :
    List DiffChange :=
  (pySetSeq ord ((dkeys c1).filter (fun n => n ∉ dkeys c2))).filterMap (fun n =>
    (dget c1 n).map (fun cd =>
      mkChange "removed" "java_classes" n (some cd) none ("Class " ++ n ++ " removed")))

/-- The `class_names2 - class_names1` loop: added classes. -/
def addedClassChanges (ord : List String → List String) (c1 c2 : StateDict) :
    List DiffChange :=
  (pySetSeq ord ((dkeys c2).filter (fun n => n ∉ dkeys c1))).filterMap (fun n =>
    (dget c2 n).map (fun cd =>
      mkChange "added" "java_classes" n none (some cd) ("Class " ++ n ++ " added")))

/-- One removed-entries loop over a field or method map pair. -/
def subRemoved (ord : List String → List String) (comp noun cn : String)
    (m1 m2 : StateDict) : List DiffChange :=
  (pySetSeq ord ((dkeys m1).filter (fun n => n ∉ dkeys m2))).filterMap (fun n =>
    (dget m1 n).map (fun v =>
      mkChange "removed" comp (cn ++ "." ++ n) (some v) none
        (noun ++ " " ++ n ++ " removed from class " ++ cn)))

/-- One added-entries loop over a field or method map pair. -/
def subAdded (ord : List String → List String) (comp noun cn : String)
    (m1 m2 : StateDict) : List DiffChange :=
  (pySetSeq ord ((dkeys m2).filter (fun n => n ∉ dkeys m1))).filterMap (fun n =>
    (dget m2 n).map (fun v =>
      mkChange "added" comp (cn ++ "." ++ n) none (some v)
        (noun ++ " " ++ n ++ " added to class " ++ cn)))

/-- One modified-entries loop over a field or method map pair. -/
def subModified (ord : List String → List String) (comp noun cn : String)
    (m1 m2 : StateDict) : List DiffChange :=
  (pySetSeq ord ((dkeys m1).filter (fun n => n ∈ dkeys m2))).filterMap (fun n =>
    match dget m1 n, dget m2 n with
    | some v1, some v2 =>
      if pyEq v1 v2 then none
      else some (mkChange "modified" comp (cn ++ "." ++ n) (some v1) (some v2)
        (noun ++ " " ++ n ++ " modified in class " ++ cn))
    | _, _ => none)

/-- The body of the common-classes loop for one class name: skipped when the
two records compare equal, otherwise field removals, additions and
modifications followed by method removals, additions and modifications. -/
def classPairChanges (ord : List String → List String) (cn : String)
    (cd1 cd2 : JVal) : List DiffChange :=
  if pyEq cd1 cd2 then []
  else
    subRemoved ord "fields" "Field" cn (subMap cd1 "fields") (subMap cd2 "fields")
    ++ subAdded ord "fields" "Field" cn (subMap cd1 "fields") (subMap cd2 "fields")
    ++ subModified ord "fields" "Field" cn (subMap cd1 "fields") (subMap cd2 "fields")
    ++ subRemoved ord "methods" "Method" cn (subMap cd1 "methods") (subMap cd2 "methods")
    ++ subAdded ord "methods" "Method" cn (subMap cd1 "methods") (subMap cd2 "methods")
    ++ subModified ord "methods" "Method" cn (subMap cd1 "methods") (subMap cd2 "methods")

/-- The `class_names1 & class_names2` loop. -/
def commonClassChanges (ord : List String → List String) (c1 c2 : StateDict) :
    List DiffChange :=
  (pySetSeq ord ((dkeys c1).filter (fun n => n ∈ dkeys c2))).flatMap (fun n =>
    match dget c1 n, dget c2 n with
    | some cd1, some cd2 => classPairChanges ord n cd1 cd2
    | _, _ => [])

/-- `state.get('build_status', {}).get('build_status')`.  A non-dict
`build_status` would raise `AttributeError` in Python; no statement below has
one. -/
def buildValue (s : StateDict) : JVal :=
  match dgetD s "build_status" (.dict []) with
  | .dict d => dgetD d "build_status" .null
  | _ => .null

/-- The final `build_status.build_status` comparison. -/
def buildStatusChanges (s1 s2 : StateDict) : List DiffChange :=
  if pyEq (buildValue s1) (buildValue s2) then []
  else [mkChange "modified" "build_status" "build_status.build_status"
    (some (dgetD s1 "build_status" (.dict []))) (some (dgetD s2 "build_status" (.dict [])))
    ("Build status changed from " ++ pyStr (buildValue s1) ++ " to "
      ++ pyStr (buildValue s2))]

/-- The summary counts.  The source increments its counters inline next to
each `changes.append`; the totals are exactly these counts over the emitted
list (one `added`/`removed`/`modified` tick per change of that type, one
`classes_changed`/`fields_changed`/`methods_changed` tick per change of that
component, and no component tick for the build-status change). -/
def diffSummary (changes : List DiffChange) : DiffSummary :=
  ⟨(changes.filter (fun c => c.change_type = "added")).length,
   (changes.filter (fun c => c.change_type = "removed")).length,
   (changes.filter (fun c => c.change_type = "modified")).length,
   (changes.filter (fun c => c.component = "java_classes")).length,
   (changes.filter (fun c => c.component = "fields")).length,
   (changes.filter (fun c => c.component = "methods")).length⟩

/-- `diff_states`, parameterized by the set-iteration order `ord` (see
`pySetSeq`).  Note the source file itself cannot be imported as written: the
summary dictionary literal is missing a comma after `"modified": 0`, which is
a `SyntaxError`; the model repairs that comma and otherwise follows the
source loop for loop. -/
def diff_states (ord : List String → List String) (state1 state2 : StateDict) :
    DiffReport :=
  let hash1 := calculate_state_hash state1
  let hash2 := calculate_state_hash state2
  let classes1 := classesOf state1
  let classes2 := classesOf state2
  let changes := removedClassChanges ord classes1 classes2
    ++ addedClassChanges ord classes1 classes2
    ++ commonClassChanges ord classes1 classes2
    ++ buildStatusChanges state1 state2
  ⟨hash1, hash2, changes, diffSummary changes⟩

theorem dget_dset_self (d : StateDict) (k : String) (v : JVal) :
    dget (dset d k v) k = some v := by
  induction d with
  | nil => simp [dset, dget]
  | cons kv rest ih =>
    obtain ⟨k', v'⟩ := kv
    by_cases h : k' = k <;> simp [dset, dget, h, ih]

theorem dget_dset_ne (d : StateDict) (k k' : String) (v : JVal) (h : k' ≠ k) :
    dget (dset d k v) k' = dget d k' := by
  have hk : k ≠ k' := Ne.symm h
  induction d with
  | nil => simp [dset, dget, hk]
  | cons kv rest ih =>
    obtain ⟨a, b⟩ := kv
    by_cases ha : a = k
    · subst ha
      simp [dset, dget, hk]
    · by_cases ha' : a = k' <;> simp [dset, dget, ha, ha', h, ih]

theorem dpop_dset_same (d : StateDict) (k : String) (v : JVal) :
    dpop (dset d k v) k = dpop d k := by
  induction d with
  | nil => simp [dset, dpop]
  | cons kv rest ih =>
    obtain ⟨a, b⟩ := kv
    by_cases ha : a = k
    · simp [dset, dpop, ha]
    · simp only [dset, if_neg ha, dpop, List.filter_cons]
      simp only [dpop] at ih
      rw [ih]

theorem dpop_dset_ne (d : StateDict) (k k' : String) (v : JVal) (h : k' ≠ k) :
    dpop (dset d k' v) k = dset (dpop d k) k' v := by
  have hk : k ≠ k' := Ne.symm h
  induction d with
  | nil => simp [dset, dpop, h]
  | cons kv rest ih =>
    obtain ⟨a, b⟩ := kv
    by_cases ha : a = k'
    · subst ha
      simp [dset, dpop, h, hk, ih]
    · simp only [dpop, ne_eq, decide_not] at ih
      by_cases hak : a = k <;> simp [dset, dpop, ha, hak, hk, ih]

theorem hashPop_dset_messages (d : StateDict) (v : JVal) :
    hashPop (dset d "messages" v) = hashPop d := by
  unfold hashPop
  rw [dpop_dset_same]

theorem hashPop_dset_last_action (d : StateDict) (v : JVal) :
    hashPop (dset d "last_action" v) = hashPop d := by
  unfold hashPop
  rw [dpop_dset_ne _ _ _ _ (by decide), dpop_dset_same]

theorem hashPop_dset_summary_report (d : StateDict) (v : JVal) :
    hashPop (dset d "summary_report" v) = hashPop d := by
  unfold hashPop
  rw [dpop_dset_ne _ _ _ _ (by decide), dpop_dset_ne _ _ _ _ (by decide), dpop_dset_same]

theorem hashPop_dset_retry_count (d : StateDict) (v : JVal) :
    hashPop (dset d "retry_count" v) = hashPop d := by
  unfold hashPop
  rw [dpop_dset_ne _ _ _ _ (by decide), dpop_dset_ne _ _ _ _ (by decide),
    dpop_dset_ne _ _ _ _ (by decide), dpop_dset_same]

/-- C10: the diff checksums are insensitive to `messages`, `last_action`,
`summary_report` and `retry_count`: overwriting (or adding) any values for
those four fields leaves `calculate_state_hash` unchanged, so two states that
agree everywhere else get identical `state1_hash`/`state2_hash` in
`diff_states`. -/
theorem hash_insensitive (st : StateDict) (m la sr rc : JVal) :
    calculate_state_hash (dset (dset (dset (dset st "messages" m)
      "last_action" la) "summary_report" sr) "retry_count" rc)
      = calculate_state_hash st := by
  unfold calculate_state_hash
  rw [hashPop_dset_retry_count, hashPop_dset_summary_report,
    hashPop_dset_last_action, hashPop_dset_messages]

theorem pyEq_str_iff (v : JVal) (s : String) : pyEq v (.str s) = true ↔ v = .str s := by
  cases v <;> simp [pyEq, canon]

theorem reviewNeedsWork_iff (tc : JVal) :
    reviewNeedsWork tc = true ↔ ∃ d, tc = JVal.dict d ∧
      (dget d "status" = some (.str "needs_fixes") ∨
       dget d "status" = some (.str "review_comments")) := by
  cases tc with
  | dict d =>
    simp only [reviewNeedsWork]
    cases hs : dget d "status" with
    | none => simp [hs]
    | some v => simp [pyEq_str_iff, hs]
  | null => simp [reviewNeedsWork]
  | bool b => simp [reviewNeedsWork]
  | int n => simp [reviewNeedsWork]
  | str s => simp [reviewNeedsWork]
  | list xs => simp [reviewNeedsWork]
  | obj o => simp [reviewNeedsWork]

/-- A state whose single test class carries status `review_comments`. -/
def reviewCommentsState : StateDict :=
  [("test_classes", .list [.dict [("name", .str "CalculatorTest"),
    ("status", .str "review_comments")]])]

/-- C6 counterexample: a state with no test class of status `needs_fixes`
(its one test class has status `review_comments`) for which
`should_continue_review` returns `generate_test`, not the `validate_test` the
claim requires in that case: the source also routes on the status
`review_comments`. -/
theorem review_routing_cex :
    (∀ d, JVal.dict d ∈ [JVal.dict [("name", JVal.str "CalculatorTest"),
        ("status", JVal.str "review_comments")]] →
      dget d "status" ≠ some (.str "needs_fixes")) ∧
    should_continue_review reviewCommentsState = "generate_test" ∧
    should_continue_review reviewCommentsState ≠ "validate_test" := by
  refine ⟨?_, by decide, by decide⟩
  intro d hd
  simp at hd
  subst hd
  decide

/-- C6 amended: `should_continue_review` returns `generate_test` exactly when
some test class has status in `{needs_fixes, review_comments}` and
`validate_test` otherwise; with no test classes it returns `validate_test`. -/
theorem should_continue_review_spec (st : StateDict) (l : List JVal)
    (h : dget st "test_classes" = some (.list l)) :
    (should_continue_review st = "generate_test" ↔
      ∃ d, JVal.dict d ∈ l ∧ (dget d "status" = some (.str "needs_fixes") ∨
        dget d "status" = some (.str "review_comments"))) ∧
    (should_continue_review st = "validate_test" ↔
      ¬ ∃ d, JVal.dict d ∈ l ∧ (dget d "status" = some (.str "needs_fixes") ∨
        dget d "status" = some (.str "review_comments"))) := by
  have hD : dgetD st "test_classes" (.list []) = .list l := by
    simp [dgetD, h]
  have hex : (l.any reviewNeedsWork = true) ↔
      ∃ d, JVal.dict d ∈ l ∧ (dget d "status" = some (.str "needs_fixes") ∨
        dget d "status" = some (.str "review_comments")) := by
    simp only [List.any_eq_true, reviewNeedsWork_iff]
    constructor
    · rintro ⟨tc, htc, d, rfl, hd⟩
      exact ⟨d, htc, hd⟩
    · rintro ⟨d, hd, hs⟩
      exact ⟨.dict d, hd, d, rfl, hs⟩
  have hres : should_continue_review st =
      (if l.any reviewNeedsWork = true then "generate_test" else "validate_test") := by
    unfold should_continue_review
    rw [hD]
    cases l with
    | nil => simp [JVal.truthy]
    | cons a as => simp [JVal.truthy]
  by_cases hany : l.any reviewNeedsWork = true
  · rw [hres, if_pos hany]
    exact ⟨⟨fun _ => hex.mp hany, fun _ => rfl⟩,
      ⟨fun h' => absurd h' (by decide), fun hc => absurd (hex.mp hany) hc⟩⟩
  · have hnex : ¬ ∃ d, JVal.dict d ∈ l ∧
        (dget d "status" = some (.str "needs_fixes") ∨
         dget d "status" = some (.str "review_comments")) :=
      fun hc => hany (hex.mpr hc)
    rw [hres, if_neg hany]
    exact ⟨⟨fun h' => absurd h' (by decide), fun hc => absurd hc hnex⟩,
      ⟨fun _ => hnex, fun _ => rfl⟩⟩

/-- Witness for the amended C6 theorem at concrete inputs: the empty test
list routes to validation, and a `needs_fixes` status routes to generation. -/
theorem should_continue_review_spec_witness :
    should_continue_review [("test_classes", JVal.list [])] = "validate_test" ∧
    should_continue_review [("test_classes", JVal.list [.dict [("status",
      JVal.str "needs_fixes")]])] = "generate_test" := by
  constructor
  · exact (should_continue_review_spec [("test_classes", JVal.list [])] [] rfl).2.mpr
      (by simp)
  · exact (should_continue_review_spec
      [("test_classes", JVal.list [.dict [("status", JVal.str "needs_fixes")]])]
      [.dict [("status", JVal.str "needs_fixes")]]
      (by decide)).1.mpr ⟨[("status", JVal.str "needs_fixes")], by simp, Or.inl (by decide)⟩

/-- A minimal state accepted by `set_state`: all six required top-level
fields present. -/
def mkSampleState (pname : String) : StateDict :=
  [("project_path", .str "/proj"), ("project_name", .str pname),
   ("java_classes", .list []), ("test_classes", .list []),
   ("dependencies", .list []),
   ("build_status", .dict [("build_status", .str "not_built")])]

/-- Transaction begun while the live state is `None`. -/
def nilBeginTx : StateTransaction :=
  (begin_transaction StateManager.init "stage").1

/-- Manager right after that begin. -/
def nilBeginSm1 : StateManager :=
  (begin_transaction StateManager.init "stage").2

/-- Manager after `set_state` ran inside the transaction. -/
def nilBeginSm2 : StateManager :=
  (set_state nilBeginSm1 (mkSampleState "A")).2

/-- Manager after rolling the transaction back. -/
def nilBeginSm3 : StateManager :=
  rollback_transaction nilBeginSm2 nilBeginTx (some "boom")

/-- C5 counterexample: a transaction begun with a `None` live state, followed
by a successful `set_state`, is rolled back — and the rollback is not a no-op
on the live state: it overwrites the state set during the transaction with
the captured empty dictionary (the Python guard
`if transaction.before_snapshot:` is always truthy). -/
theorem rollback_nil_cex :
    nilBeginSm2.current_state = some (mkSampleState "A") ∧
    nilBeginSm3.current_state = some [] ∧
    nilBeginSm3.current_state ≠ nilBeginSm2.current_state := by
  refine ⟨by decide, by decide, by decide⟩

theorem rollback_current (sm : StateManager) (tx : StateTransaction)
    (err : Option String) :
    (rollback_transaction sm tx err).current_state =
      some tx.before_snapshot.state_data := by
  unfold rollback_transaction
  dsimp only
  split <;> rfl

theorem rollback_transactions (sm : StateManager) (tx : StateTransaction)
    (err : Option String) :
    (rollback_transaction sm tx err).transactions =
      sm.transactions ++ [{ tx with success := false, error := err }] := by
  unfold rollback_transaction
  dsimp only
  split <;> rfl

/-- C5 amended: rolling back a transaction whose begin saw a `None` live
state restores the live slot to the captured empty dictionary — whatever
happened in between — so `get_state` afterwards returns `None`, matching the
observable state from before the transaction; it is a no-op only on that
`get_state` view, not on a live state set during the transaction. -/
theorem rollback_after_nil_begin (sm0 smX : StateManager) (op reason : String)
    (h : sm0.current_state = none) :
    (rollback_transaction smX (begin_transaction sm0 op).1 (some reason)).current_state
      = some [] ∧
    get_state (rollback_transaction smX (begin_transaction sm0 op).1 (some reason))
      = none ∧
    get_state sm0 = none := by
  have htx : (begin_transaction sm0 op).1.before_snapshot.state_data = [] := by
    simp [begin_transaction, create_snapshot, h, mkSnapshot]
  have hcur := rollback_current smX (begin_transaction sm0 op).1 (some reason)
  rw [htx] at hcur
  exact ⟨hcur, by simp [get_state, hcur], by simp [get_state, h]⟩

/-- Witness for the amended C5 theorem at the concrete scenario above. -/
theorem rollback_after_nil_begin_witness :
    (rollback_transaction nilBeginSm2 (begin_transaction StateManager.init "stage").1
      (some "boom")).current_state = some [] ∧
    get_state (rollback_transaction nilBeginSm2
      (begin_transaction StateManager.init "stage").1 (some "boom")) = none ∧
    get_state StateManager.init = none :=
  rollback_after_nil_begin StateManager.init nilBeginSm2 "stage" "boom" rfl

theorem validate_ok_top (s : StateDict) (h : validate_state s = .ok ()) :
    ∀ f ∈ requiredStateFields, (dget s f).isSome := by
  unfold validate_state at h
  split at h
  · exact absurd h (by simp)
  · split at h
    · exact absurd h (by simp)
    · rename_i heq
      intro f hf
      have := List.find?_eq_none.mp heq f hf
      simp only [decide_eq_true_eq] at this
      cases hg : dget s f
      · exact absurd (by simp [hg]) this
      · simp

theorem validate_ok_classes (s : StateDict) (cs : List JVal)
    (h : validate_state s = .ok ()) (hcs : dget s "java_classes" = some (.list cs)) :
    validateClasses cs 0 = .ok () := by
  unfold validate_state at h
  split at h
  · exact absurd h (by simp)
  · split at h
    · exact absurd h (by simp)
    · rw [hcs] at h
      exact h

theorem validate_class_ok (c : JVal) (path : String)
    (h : validate_java_class_state c path = .ok ()) :
    ∃ d, c = JVal.dict d ∧ (∀ f ∈ requiredClassFields, (dget d f).isSome) ∧
      (dgetD d "file_path" .null).truthy = true := by
  cases c with
  | dict d =>
    simp only [validate_java_class_state] at h
    refine ⟨d, rfl, ?_, ?_⟩
    · cases hm : firstMissing d requiredClassFields with
      | some f => rw [hm] at h; exact absurd h (by simp)
      | none =>
        intro f hf
        have := List.find?_eq_none.mp hm f hf
        simp only [decide_eq_true_eq] at this
        cases hg : dget d f
        · exact absurd (by simp [firstMissing, hg]) this
        · simp
    · cases hm : firstMissing d requiredClassFields with
      | some f => rw [hm] at h; exact absurd h (by simp)
      | none =>
        rw [hm] at h
        by_cases htr : (dgetD d "file_path" JVal.null).truthy = true
        · exact htr
        · rw [if_pos (by simpa using htr)] at h
          exact absurd h (by simp)
  | null => exact absurd h (by simp [validate_java_class_state])
  | bool b => exact absurd h (by simp [validate_java_class_state])
  | int n => exact absurd h (by simp [validate_java_class_state])
  | str t => exact absurd h (by simp [validate_java_class_state])
  | list xs => exact absurd h (by simp [validate_java_class_state])
  | obj o => exact absurd h (by simp [validate_java_class_state])

theorem validateClasses_ok (cs : List JVal) (idx : Nat)
    (h : validateClasses cs idx = .ok ()) :
    ∀ c ∈ cs, ∃ d, c = JVal.dict d ∧ (∀ f ∈ requiredClassFields, (dget d f).isSome) ∧
      (dgetD d "file_path" .null).truthy = true := by
  induction cs generalizing idx with
  | nil => simp
  | cons c rest ih =>
    simp only [validateClasses] at h
    cases hv : validate_java_class_state c ("java_classes[" ++ toString idx ++ "]") with
    | error e => rw [hv] at h; exact absurd h (by simp)
    | ok u =>
      obtain ⟨⟩ := u
      rw [hv] at h
      intro x hx
      rcases List.mem_cons.mp hx with hx | hx
      · subst hx
        exact validate_class_ok x _ hv
      · exact ih (idx + 1) h x hx

/-- C4: `set_state` raises a `ValidationError` when a required top-level
field is absent, when a `java_classes` record lacks a required field, or when
a class with status `analyzed` has an empty `file_path`; and whenever it
raises, the manager (live state, snapshots, transaction history) is returned
unchanged — validation runs before any mutation. -/
theorem set_state_validation (sm : StateManager) (s : StateDict) :
    ((∃ f ∈ requiredStateFields, dget s f = none) →
      ∃ e, (set_state sm s).1 = .error e) ∧
    (∀ cs d, dget s "java_classes" = some (.list cs) → JVal.dict d ∈ cs →
      (∃ f ∈ requiredClassFields, dget d f = none) →
      ∃ e, (set_state sm s).1 = .error e) ∧
    (∀ cs d, dget s "java_classes" = some (.list cs) → JVal.dict d ∈ cs →
      dget d "status" = some (.str "analyzed") → dget d "file_path" = some (.str "") →
      ∃ e, (set_state sm s).1 = .error e) ∧
    (∀ e, (set_state sm s).1 = .error e → (set_state sm s).2 = sm) := by
  cases hv : validate_state s with
  | error e =>
    have h1 : (set_state sm s).1 = .error e := by simp [set_state, hv]
    have h2 : (set_state sm s).2 = sm := by simp [set_state, hv]
    exact ⟨fun _ => ⟨e, h1⟩, fun _ _ _ _ _ => ⟨e, h1⟩, fun _ _ _ _ _ _ => ⟨e, h1⟩,
      fun _ _ => h2⟩
  | ok u =>
    obtain ⟨⟩ := u
    have h1 : (set_state sm s).1 = .ok () := by simp [set_state, hv]
    refine ⟨?_, ?_, ?_, ?_⟩
    · rintro ⟨f, hf, hnone⟩
      have := validate_ok_top s hv f hf
      rw [hnone] at this
      exact absurd this (by simp)
    · rintro cs d hcs hd ⟨f, hf, hnone⟩
      obtain ⟨d', hd', hfields, _⟩ :=
        validateClasses_ok cs 0 (validate_ok_classes s cs hv hcs) _ hd
      obtain rfl : d = d' := by injection hd'
      have := hfields f hf
      rw [hnone] at this
      exact absurd this (by simp)
    · rintro cs d hcs hd _ hfp
      obtain ⟨d', hd', _, htr⟩ :=
        validateClasses_ok cs 0 (validate_ok_classes s cs hv hcs) _ hd
      obtain rfl : d = d' := by injection hd'
      rw [dgetD, hfp] at htr
      exact absurd htr (by simp [JVal.truthy])
    · intro e he
      rw [h1] at he
      exact absurd he (by simp)

/-- State missing five of the six required top-level fields. -/
def missingTopState : StateDict := [("project_path", .str "/p")]

/-- State whose one class record lacks `file_path` and the other required
class fields. -/
def missingClassFieldState : StateDict :=
  [("project_path", .str "/p"), ("project_name", .str "p"),
   ("java_classes", .list [.dict [("name", .str "A")]]),
   ("test_classes", .list []), ("dependencies", .list []),
   ("build_status", .dict [])]

/-- State whose one `analyzed` class record has an empty `file_path`. -/
def emptyFilePathState : StateDict :=
  [("project_path", .str "/p"), ("project_name", .str "p"),
   ("java_classes", .list [.dict [("name", .str "A"), ("file_path", .str ""),
     ("fields", .list []), ("methods", .list []), ("imports", .list []),
     ("status", .str "analyzed")]]),
   ("test_classes", .list []), ("dependencies", .list []),
   ("build_status", .dict [])]

/-- Witness for C4 at concrete inputs: each of the three validation failures
raises, and the erroring call leaves the manager unchanged. -/
theorem set_state_validation_witness :
    (∃ e, (set_state StateManager.init missingTopState).1 = .error e) ∧
    (∃ e, (set_state StateManager.init missingClassFieldState).1 = .error e) ∧
    (∃ e, (set_state StateManager.init emptyFilePathState).1 = .error e) ∧
    (set_state StateManager.init missingTopState).2 = StateManager.init := by
  refine ⟨(set_state_validation StateManager.init missingTopState).1
      ⟨"project_name", by decide, by decide⟩,
    (set_state_validation StateManager.init missingClassFieldState).2.1
      [.dict [("name", .str "A")]] [("name", .str "A")]
      (by decide) (by decide) ⟨"file_path", by decide, by decide⟩,
    (set_state_validation StateManager.init emptyFilePathState).2.2.1
      [.dict [("name", .str "A"), ("file_path", .str ""), ("fields", .list []),
        ("methods", .list []), ("imports", .list []), ("status", .str "analyzed")]]
      [("name", .str "A"), ("file_path", .str ""), ("fields", .list []),
        ("methods", .list []), ("imports", .list []), ("status", .str "analyzed")]
      (by decide) (by decide) (by decide) (by decide), ?_⟩
  obtain ⟨e, he⟩ := (set_state_validation StateManager.init missingTopState).1
    ⟨"project_name", by decide, by decide⟩
  exact (set_state_validation StateManager.init missingTopState).2.2.2 e he

theorem dget_validate_update (valTests : StateDict → List JVal)
    (valResults : StateDict → JVal) (st : StateDict) (k : String)
    (hk1 : k ≠ "test_classes") (hk2 : k ≠ "test_results")
    (hk3 : k ≠ "all_tests_passed") (hk4 : k ≠ "last_action") :
    dget (validate_test_update valTests valResults st) k = dget st k := by
  unfold validate_test_update
  rw [dget_dset_ne _ _ _ _ hk4, dget_dset_ne _ _ _ _ hk3,
    dget_dset_ne _ _ _ _ hk2, dget_dset_ne _ _ _ _ hk1]

theorem dget_validate_update_passed (valTests : StateDict → List JVal)
    (valResults : StateDict → JVal) (st : StateDict) :
    dget (validate_test_update valTests valResults st) "all_tests_passed" =
      some (.bool ((valTests st).all statusIsPassed)) := by
  unfold validate_test_update
  rw [dget_dset_ne _ _ _ _ (by decide), dget_dset_self]

theorem dget_fix_update_retry (fixTests : StateDict → JVal) (st : StateDict) :
    dget (fix_test_update fixTests st) "retry_count" =
      some (.int (asInt (dgetD st "retry_count" (.int 0)) + 1)) := by
  unfold fix_test_update
  rw [dget_dset_ne _ _ _ _ (by decide), dget_dset_self]

theorem dget_fix_update_ne (fixTests : StateDict → JVal) (st : StateDict)
    (k : String) (hk1 : k ≠ "test_classes") (hk2 : k ≠ "retry_count")
    (hk3 : k ≠ "last_action") :
    dget (fix_test_update fixTests st) k = dget st k := by
  unfold fix_test_update
  rw [dget_dset_ne _ _ _ _ hk3, dget_dset_ne _ _ _ _ hk2, dget_dset_ne _ _ _ _ hk1]

theorem should_validate_failed (st : StateDict) (r m : Int)
    (hp : dget st "all_tests_passed" = some (.bool false))
    (hr : dget st "retry_count" = some (.int r))
    (hm : dget st "max_retries" = some (.int m)) :
    should_validate st = if r < m then "fix_test" else "end_failed" := by
  unfold should_validate
  rw [dgetD, hp]
  simp only [Option.getD_some, JVal.truthy, if_false]
  rw [dgetD, hr, dgetD, hm]
  simp [asInt]

theorem run_validate_loop_spec (valTests : StateDict → List JVal)
    (valResults fixTests : StateDict → JVal)
    (hfail : ∀ s, (valTests s).all statusIsPassed = false) :
    ∀ (fuel r k : Nat) (st : StateDict), r ≤ k → k - r < fuel →
      dget st "retry_count" = some (.int (r : Int)) →
      dget st "max_retries" = some (.int (k : Int)) →
      run_validate_loop valTests valResults fixTests fuel st
        = (k - r, "end_failed") := by
  intro fuel
  induction fuel with
  | zero => intro r k st _ hlt _ _; omega
  | succ fuel ih =>
    intro r k st hrk hlt hr hk
    have hp : dget (validate_test_update valTests valResults st) "all_tests_passed"
        = some (.bool false) := by
      rw [dget_validate_update_passed, hfail]
    have hr1 : dget (validate_test_update valTests valResults st) "retry_count"
        = some (.int (r : Int)) := by
      rw [dget_validate_update _ _ _ _ (by decide) (by decide) (by decide) (by decide), hr]
    have hk1 : dget (validate_test_update valTests valResults st) "max_retries"
        = some (.int (k : Int)) := by
      rw [dget_validate_update _ _ _ _ (by decide) (by decide) (by decide) (by decide), hk]
    have hsv := should_validate_failed _ _ _ hp hr1 hk1
    unfold run_validate_loop
    dsimp only
    by_cases hlt' : r < k
    · have hcast : ((r : Int) < (k : Int)) := by exact_mod_cast hlt'
      rw [hsv, if_pos hcast, if_pos rfl]
      have hr2 : dget (fix_test_update fixTests
          (validate_test_update valTests valResults st)) "retry_count"
          = some (.int ((r + 1 : Nat) : Int)) := by
        rw [dget_fix_update_retry, dgetD, hr1]
        simp [asInt]
      have hk2 : dget (fix_test_update fixTests
          (validate_test_update valTests valResults st)) "max_retries"
          = some (.int (k : Int)) := by
        rw [dget_fix_update_ne _ _ _ (by decide) (by decide) (by decide), hk1]
      rw [ih (r + 1) k _ (by omega) (by omega) hr2 hk2]
      have : k - r = (k - (r + 1)) + 1 := by omega
      rw [this]
    · have hge : ¬ ((r : Int) < (k : Int)) := by exact_mod_cast hlt'
      rw [hsv, if_neg hge]
      rw [if_neg (by decide)]
      have : k - r = 0 := by omega
      rw [this]

/-- C1: with `retry_count = 0` and `max_retries = k`, a run of the
`validate_test`/`fix_test` loop whose validate stage always reports failure
terminates at `end_failed` after exactly `k` passes through `fix_test`;
`fix_test` adds exactly 1 to `retry_count` per invocation, and (when not all
tests passed) `should_validate` routes to `fix_test` iff
`retry_count < max_retries` and to `end_failed` iff
`retry_count >= max_retries`. -/
theorem retry_termination (valTests : StateDict → List JVal)
    (valResults fixTests : StateDict → JVal) (st : StateDict) (k fuel : Nat)
    (hfail : ∀ s, (valTests s).all statusIsPassed = false)
    (h0 : dget st "retry_count" = some (.int 0))
    (hk : dget st "max_retries" = some (.int (k : Int)))
    (hfuel : k < fuel) :
    run_validate_loop valTests valResults fixTests fuel st = (k, "end_failed") ∧
    (∀ s (r m : Int), dget s "all_tests_passed" = some (.bool false) →
      dget s "retry_count" = some (.int r) → dget s "max_retries" = some (.int m) →
      ((should_validate s = "fix_test") ↔ r < m) ∧
      ((should_validate s = "end_failed") ↔ m ≤ r)) ∧
    (∀ s, dget (fix_test_update fixTests s) "retry_count" =
      some (.int (asInt (dgetD s "retry_count" (.int 0)) + 1))) := by
  refine ⟨?_, ?_, fun s => dget_fix_update_retry fixTests s⟩
  · have := run_validate_loop_spec valTests valResults fixTests hfail fuel 0 k st
      (by omega) (by omega) (by exact_mod_cast h0) hk
    simpa using this
  · intro s r m hp hr hm
    rw [should_validate_failed s r m hp hr hm]
    by_cases hrm : r < m
    · simp [hrm]
    · constructor
      · simp [hrm]
      · simp only [if_neg hrm]
        exact ⟨fun _ => by omega, fun _ => by trivial⟩

theorem failedStatusNotPassed :
    [JVal.dict [("status", JVal.str "failed")]].all statusIsPassed = false := by
  decide

/-- Witness for C1: one concrete always-failing pipeline with
`max_retries = 2` performs exactly two fix passes and ends at `end_failed`. -/
theorem retry_termination_witness :
    run_validate_loop (fun _ => [.dict [("status", .str "failed")]])
      (fun _ => .dict []) (fun _ => .list [])
      3 [("retry_count", .int 0), ("max_retries", .int 2)] = (2, "end_failed") :=
  (retry_termination (fun _ => [.dict [("status", .str "failed")]])
    (fun _ => .dict []) (fun _ => .list [])
    [("retry_count", .int 0), ("max_retries", .int 2)] 2 3
    (fun _ => failedStatusNotPassed) (by decide) (by decide) (by omega)).1

theorem mkSnapshot_state_data (sd : StateDict) (c op : String) :
    (mkSnapshot sd c op).state_data = sd := by
  unfold mkSnapshot
  split <;> rfl

theorem create_snapshot_proj (sm : StateManager) (op : String) :
    (create_snapshot sm op).2.current_state = sm.current_state ∧
    (create_snapshot sm op).2.transactions = sm.transactions := by
  unfold create_snapshot
  split
  · split
    · exact ⟨rfl, rfl⟩
    · exact ⟨rfl, rfl⟩
  · exact ⟨rfl, rfl⟩

theorem create_snapshot_data (sm : StateManager) (op : String) (d : StateDict)
    (hcur : sm.current_state = some d) (hne : d ≠ []) :
    (create_snapshot sm op).1.state_data = make_serializable d := by
  have hie : ¬ (d.isEmpty = true) := by
    cases d
    · exact absurd rfl hne
    · simp
  unfold create_snapshot
  rw [hcur]
  simp only [if_neg hie]
  exact mkSnapshot_state_data _ _ _

theorem begin_before_data (sm : StateManager) (op : String) (d : StateDict)
    (hcur : sm.current_state = some d) (hne : d ≠ []) :
    (begin_transaction sm op).1.before_snapshot.state_data = make_serializable d :=
  create_snapshot_data sm op d hcur hne

theorem begin_operation (sm : StateManager) (op : String) :
    (begin_transaction sm op).1.operation = op := rfl

theorem begin_proj (sm : StateManager) (op : String) :
    (begin_transaction sm op).2.current_state = sm.current_state ∧
    (begin_transaction sm op).2.transactions = sm.transactions :=
  create_snapshot_proj sm op

theorem set_state_ok (sm : StateManager) (s : StateDict)
    (h : validate_state s = .ok ()) :
    (set_state sm s).1 = .ok () ∧
    (set_state sm s).2.current_state = some s ∧
    (set_state sm s).2.transactions = sm.transactions := by
  unfold set_state
  rw [h]
  dsimp only
  exact ⟨rfl, (create_snapshot_proj _ _).1, (create_snapshot_proj _ _).2⟩

theorem dset_ne_nil (d : StateDict) (k : String) (v : JVal) : dset d k v ≠ [] := by
  cases d with
  | nil => simp [dset]
  | cons kv rest =>
    obtain ⟨a, b⟩ := kv
    by_cases h : a = k <;> simp [dset, h]

theorem make_serializable_ne_nil (d : StateDict) (h : d ≠ []) :
    make_serializable d ≠ [] := by
  unfold make_serializable
  split
  · exact dset_ne_nil _ _ _
  · exact h

theorem make_serializable_no_messages (d : StateDict)
    (h : dget d "messages" = none) : make_serializable d = d := by
  unfold make_serializable
  rw [h]

theorem get_state_some (sm : StateManager) (d : StateDict)
    (hcur : sm.current_state = some d) (hne : d ≠ []) : get_state sm = some d := by
  have hie : d.isEmpty = false := by
    cases d
    · exact absurd rfl hne
    · rfl
  simp [get_state, hcur, hie]

/-- C2: for a committed (validated, hence nonempty) live state `S0`, the
sequence `tx = begin_transaction(op); set_state(S1); rollback_transaction(tx,
reason)` leaves `get_state` equal to the serializable image of `S0` (equal to
`S0` itself whenever `S0` holds no live `messages` — the only
intentionally-flattened field), and appends to the history a transaction with
`success = false` and `error = reason`. -/
theorem rollback_restores (sm0 : StateManager) (S0 S1 : StateDict)
    (op reason : String)
    (hcur : sm0.current_state = some S0) (hS0 : S0 ≠ [])
    (hS1 : validate_state S1 = .ok ()) :
    get_state (rollback_transaction (set_state (begin_transaction sm0 op).2 S1).2
      (begin_transaction sm0 op).1 (some reason)) = some (make_serializable S0) ∧
    (dget S0 "messages" = none →
      get_state (rollback_transaction (set_state (begin_transaction sm0 op).2 S1).2
        (begin_transaction sm0 op).1 (some reason)) = some S0) ∧
    (∃ tx', (rollback_transaction (set_state (begin_transaction sm0 op).2 S1).2
        (begin_transaction sm0 op).1 (some reason)).transactions =
      sm0.transactions ++ [tx'] ∧ tx'.success = false ∧ tx'.error = some reason ∧
      tx'.operation = op) := by
  have hb := begin_before_data sm0 op S0 hcur hS0
  have hget : get_state (rollback_transaction
      (set_state (begin_transaction sm0 op).2 S1).2
      (begin_transaction sm0 op).1 (some reason)) = some (make_serializable S0) := by
    have hcr := rollback_current (set_state (begin_transaction sm0 op).2 S1).2
      (begin_transaction sm0 op).1 (some reason)
    rw [hb] at hcr
    exact get_state_some _ _ hcr (make_serializable_ne_nil S0 hS0)
  refine ⟨hget, ?_, ?_⟩
  · intro hmsg
    rw [hget, make_serializable_no_messages S0 hmsg]
  · refine ⟨{ (begin_transaction sm0 op).1 with
        success := false
        error := some reason }, ?_, rfl, rfl, rfl⟩
    rw [rollback_transactions, (set_state_ok _ S1 hS1).2.2, (begin_proj sm0 op).2]

/-- Witness for C2 at a concrete committed state and concrete replacement. -/
theorem rollback_restores_witness :
    get_state (rollback_transaction
      (set_state (begin_transaction (set_state StateManager.init
        (mkSampleState "S0")).2 "stage").2 (mkSampleState "S1")).2
      (begin_transaction (set_state StateManager.init
        (mkSampleState "S0")).2 "stage").1 (some "boom")) =
      some (mkSampleState "S0") := by
  have h := rollback_restores (set_state StateManager.init (mkSampleState "S0")).2
    (mkSampleState "S0") (mkSampleState "S1") "stage" "boom"
    (by decide) (by decide) (by rfl)
  exact h.2.1 (by decide)

theorem commit_transactions (sm : StateManager) (tx : StateTransaction) :
    commit_transaction sm tx = { (create_snapshot sm tx.operation).2 with
      transactions := sm.transactions ++ [{ tx with
        after_snapshot := some (create_snapshot sm tx.operation).1
        success := true }] } := by
  unfold commit_transaction
  rw [(create_snapshot_proj sm tx.operation).2]

/-- C3: `execute_with_rollback(label, fn)` commits and returns `fn`'s result
when `fn` returns (the appended transaction has `success = true` and a
non-nil after snapshot), and on an exception `e` it rolls the live state back
to the before snapshot and re-raises the identical `e` unchanged while the
appended transaction has `success = false` — a caller never observes a
committed transaction after `fn` raised. -/
theorem execute_with_rollback_contract {α ε : Type} (excStr : ε → String)
    (sm : StateManager) (op : String)
    (func : StateManager → Except ε α × StateManager) (S : StateDict)
    (hcur : sm.current_state = some S) (hne : S ≠ []) :
    (∀ (r : α) sm2, func (begin_transaction sm op).2 = (.ok r, sm2) →
      (execute_with_rollback excStr sm op func).1 = .ok r ∧
      ∃ tx', (execute_with_rollback excStr sm op func).2.transactions =
        sm2.transactions ++ [tx'] ∧ tx'.success = true ∧
        tx'.after_snapshot.isSome = true) ∧
    (∀ (e : ε) sm2, func (begin_transaction sm op).2 = (.error e, sm2) →
      (execute_with_rollback excStr sm op func).1 = .error e ∧
      (execute_with_rollback excStr sm op func).2.current_state =
        some (make_serializable S) ∧
      ∃ tx', (execute_with_rollback excStr sm op func).2.transactions =
        sm2.transactions ++ [tx'] ∧ tx'.success = false) := by
  constructor
  · intro r sm2 hok
    have hw : execute_with_rollback excStr sm op func =
        (.ok r, commit_transaction sm2 (begin_transaction sm op).1) := by
      unfold execute_with_rollback
      rw [hok]
    rw [hw]
    refine ⟨rfl, ⟨{ (begin_transaction sm op).1 with
        after_snapshot := some (create_snapshot sm2
          (begin_transaction sm op).1.operation).1
        success := true }, ?_, rfl, rfl⟩⟩
    rw [commit_transactions]
  · intro e sm2 herr
    have hw : execute_with_rollback excStr sm op func =
        (.error e, rollback_transaction sm2 (begin_transaction sm op).1
          (some (excStr e))) := by
      unfold execute_with_rollback
      rw [herr]
    rw [hw]
    refine ⟨rfl, ?_, ⟨{ (begin_transaction sm op).1 with
        success := false
        error := some (excStr e) }, ?_, rfl⟩⟩
    · rw [rollback_current, begin_before_data sm op S hcur hne]
    · rw [rollback_transactions]

/-- Witness for C3: a returning stage function commits and returns its
result; a raising one re-raises the same exception with the pre-stage state
restored and an uncommitted transaction appended. -/
theorem execute_with_rollback_witness :
    (execute_with_rollback (fun e : String => e)
      (set_state StateManager.init (mkSampleState "S0")).2 "stage"
      (fun m => (.ok (7 : Nat), m))).1 = .ok 7 ∧
    (execute_with_rollback (fun e : String => e)
      (set_state StateManager.init (mkSampleState "S0")).2 "stage"
      (fun m => ((.error "boom" : Except String Nat), m))).1 = .error "boom" ∧
    (execute_with_rollback (fun e : String => e)
      (set_state StateManager.init (mkSampleState "S0")).2 "stage"
      (fun m => ((.error "boom" : Except String Nat), m))).2.current_state =
      some (make_serializable (mkSampleState "S0")) := by
  refine ⟨((execute_with_rollback_contract (fun e : String => e) _ "stage"
      (fun m => (.ok (7 : Nat), m)) (mkSampleState "S0")
      (by decide) (by decide)).1 7 _ rfl).1, ?_, ?_⟩
  · exact ((execute_with_rollback_contract (fun e : String => e) _ "stage"
      (fun m => ((.error "boom" : Except String Nat), m)) (mkSampleState "S0")
      (by decide) (by decide)).2 "boom" _ rfl).1
  · exact ((execute_with_rollback_contract (fun e : String => e) _ "stage"
      (fun m => ((.error "boom" : Except String Nat), m)) (mkSampleState "S0")
      (by decide) (by decide)).2 "boom" _ rfl).2.1

/-- C9 amended: the report-shape contract of `verify_state_consistency` for a
loaded state whose `project_path` is a nonempty string: a missing project
directory is the single hard issue; otherwise the issues are exactly the
missing-file issues and the warnings exactly the mtime-drift warnings, with
`consistent` true iff `issues` is empty; each class whose nonempty
`file_path` is missing on disk contributes its issue, and a drift of more
than one second contributes a warning, never an issue. -/
theorem verify_consistency_spec (fs : FSModel) (sm : StateManager)
    (st : StateDict) (p : String) (cs : List JVal)
    (hcur : sm.current_state = some st) (hne : st ≠ [])
    (hp : dget st "project_path" = some (.str p)) (hpne : p ≠ "")
    (hcs : dgetD st "java_classes" (.list []) = .list cs) :
    (fs.pathExists p = false →
      verify_state_consistency fs sm =
        .report false ["Project directory does not exist: " ++ p] []) ∧
    (fs.pathExists p = true →
      verify_state_consistency fs sm =
        .report (cs.filterMap (classIssue fs)).isEmpty
          (cs.filterMap (classIssue fs)) (cs.filterMap (classWarning fs))) ∧
    (∀ c i w, verify_state_consistency fs sm = .report c i w →
      (c = true ↔ i = [])) ∧
    (∀ d f, JVal.dict d ∈ cs → dget d "file_path" = some (.str f) → f ≠ "" →
      fs.pathExists f = false →
      ("Java file in state not found on filesystem: " ++ f) ∈
        cs.filterMap (classIssue fs)) ∧
    (∀ d f m, JVal.dict d ∈ cs → dget d "file_path" = some (.str f) → f ≠ "" →
      fs.pathExists f = true → dget d "last_modified" = some (.int m) → m ≠ 0 →
      1 < |fs.mtime f - m| →
      ("File modified since state was cached: " ++ f) ∈
        cs.filterMap (classWarning fs) ∧ classIssue fs (.dict d) = none) := by
  have hie : ¬ (st.isEmpty = true) := by
    cases st
    · exact absurd rfl hne
    · simp
  have hbase : verify_state_consistency fs sm =
      (if fs.pathExists p = true then
        .report (cs.filterMap (classIssue fs)).isEmpty
          (cs.filterMap (classIssue fs)) (cs.filterMap (classWarning fs))
      else .report false ["Project directory does not exist: " ++ p] []) := by
    unfold verify_state_consistency
    rw [hcur]
    dsimp only
    rw [if_neg hie, hp]
    dsimp only
    rw [if_neg hpne, hcs]
    by_cases hd : fs.pathExists p = true
    · rw [if_neg (by simp [hd]), if_pos hd]
    · rw [if_pos (by simp [hd]), if_neg hd]
  refine ⟨?_, ?_, ?_, ?_, ?_⟩
  · intro hd
    rw [hbase, if_neg (by simp [hd])]
  · intro hd
    rw [hbase, if_pos hd]
  · intro c i w hrep
    rw [hbase] at hrep
    by_cases hd : fs.pathExists p = true
    · rw [if_pos hd] at hrep
      injection hrep with h1 h2 h3
      subst h1
      subst h2
      simp [List.isEmpty_iff]
    · rw [if_neg hd] at hrep
      injection hrep with h1 h2 h3
      subst h1
      subst h2
      simp
  · intro d f hd hf hfne hfe
    refine List.mem_filterMap.mpr ⟨.dict d, hd, ?_⟩
    simp [classIssue, hf, hfne, hfe]
  · intro d f m hd hf hfne hfe hm hm0 habs
    constructor
    · refine List.mem_filterMap.mpr ⟨.dict d, hd, ?_⟩
      simp [classWarning, hf, hfne, hfe, hm, hm0, habs]
    · simp [classIssue, hf, hfne, hfe]

/-- A loadable state whose `project_path` is the empty string: every required
top-level field is present, so `set_state` accepts it. -/
def emptyProjectPathState : StateDict :=
  [("project_path", .str ""), ("project_name", .str "p"),
   ("java_classes", .list []), ("test_classes", .list []),
   ("dependencies", .list []), ("build_status", .dict [])]

/-- A filesystem with nothing on it. -/
def noFS : FSModel := ⟨fun _ => false, fun _ => 0⟩

/-- C9 counterexample: a state that `set_state` accepts (so it is loaded)
whose `project_path` is empty makes `verify_state_consistency` return the
`{"consistent": False, "error": ...}` dictionary — which has no
`issues`/`warnings` keys — refuting the claimed report shape for every
loaded state. -/
theorem verify_consistency_cex :
    (set_state StateManager.init emptyProjectPathState).1 = .ok () ∧
    verify_state_consistency noFS
      (set_state StateManager.init emptyProjectPathState).2 =
      .errorReport "No project path in state" :=
  ⟨by rfl, by rfl⟩

/-- One analyzed class whose file is absent from the filesystem. -/
def missingFileState : StateDict :=
  [("project_path", .str "/proj"), ("project_name", .str "p"),
   ("java_classes", .list [.dict [("name", .str "A"),
      ("file_path", .str "/proj/A.java"), ("fields", .list []),
      ("methods", .list []), ("imports", .list []),
      ("status", .str "analyzed")]]),
   ("test_classes", .list []), ("dependencies", .list []),
   ("build_status", .dict [])]

/-- A filesystem holding only the project directory. -/
def dirOnlyFS : FSModel := ⟨fun q => q == "/proj", fun _ => 0⟩

/-- Witness for the amended C9 theorem: deleting the class file from disk
makes the report inconsistent with exactly the one issue naming the file. -/
theorem verify_consistency_spec_witness :
    verify_state_consistency dirOnlyFS
      (set_state StateManager.init missingFileState).2 =
      .report false ["Java file in state not found on filesystem: /proj/A.java"]
        [] := by
  have h := (verify_consistency_spec dirOnlyFS
    (set_state StateManager.init missingFileState).2 missingFileState "/proj"
    [.dict [("name", .str "A"), ("file_path", .str "/proj/A.java"),
      ("fields", .list []), ("methods", .list []), ("imports", .list []),
      ("status", .str "analyzed")]]
    (by decide) (by decide) (by decide) (by decide) (by decide)).2.1 (by decide)
  rw [h]
  rfl

/-- The `(change_type, component, identifier)` key of a change. -/
def changeKey (c : DiffChange) : String × String × String :=
  (c.change_type, c.component, c.identifier)

/-- Swap `added` and `removed`, keep every other change type. -/
def swapCT (t : String) : String :=
  if t = "added" then "removed" else if t = "removed" then "added" else t

/-- The key of a change with `added`/`removed` swapped. -/
def swapKey (c : DiffChange) : String × String × String :=
  (swapCT c.change_type, c.component, c.identifier)

theorem swapCT_removed : swapCT "removed" = "added" := by decide

theorem swapCT_added : swapCT "added" = "removed" := by decide

theorem swapCT_modified : swapCT "modified" = "modified" := by decide

theorem mem_sortedKeys (l : List String) (n : String) :
    n ∈ sortedKeys l ↔ n ∈ l := by
  unfold sortedKeys
  rw [(List.perm_insertionSort strLe l.dedup).mem_iff]
  exact List.mem_dedup

theorem mem_pySetSeq (ord : List String → List String) (hord : validOrd ord)
    (l : List String) (n : String) : n ∈ pySetSeq ord l ↔ n ∈ l := by
  unfold pySetSeq
  rw [(hord _).mem_iff]
  exact mem_sortedKeys l n

theorem dget_isSome_of_mem (d : StateDict) (n : String) (h : n ∈ dkeys d) :
    ∃ v, dget d n = some v := by
  induction d with
  | nil => simp [dkeys] at h
  | cons kv rest ih =>
    obtain ⟨a, b⟩ := kv
    by_cases ha : a = n
    · exact ⟨b, by simp [dget, ha]⟩
    · have hm : n ∈ dkeys rest := by
        have hcons : n ∈ a :: dkeys rest := h
        rcases List.mem_cons.mp hcons with hc | hc
        · exact absurd hc.symm ha
        · exact hc
      obtain ⟨v, hv⟩ := ih hm
      exact ⟨v, by simp [dget, ha, hv]⟩

theorem filterMap_eq_map_of {α β : Type} (l : List α) (f : α → Option β)
    (g : α → β) (h : ∀ a ∈ l, f a = some (g a)) : l.filterMap f = l.map g := by
  induction l with
  | nil => rfl
  | cons a rest ih =>
    rw [List.filterMap_cons, h a (by simp), List.map_cons,
      ih (fun x hx => h x (by simp [hx]))]

theorem sortedKeys_congr (l₁ l₂ : List String)
    (h : ∀ n, n ∈ l₁ ↔ n ∈ l₂) : sortedKeys l₁ = sortedKeys l₂ := by
  have hn₁ : (sortedKeys l₁).Nodup :=
    ((List.perm_insertionSort strLe l₁.dedup).nodup_iff).mpr (List.nodup_dedup l₁)
  have hn₂ : (sortedKeys l₂).Nodup :=
    ((List.perm_insertionSort strLe l₂.dedup).nodup_iff).mpr (List.nodup_dedup l₂)
  have hperm : (sortedKeys l₁).Perm (sortedKeys l₂) :=
    (List.perm_ext_iff_of_nodup hn₁ hn₂).mpr (fun n => by
      rw [mem_sortedKeys, mem_sortedKeys]
      exact h n)
  exact List.eq_of_perm_of_sorted hperm
    (List.sorted_insertionSort strLe l₁.dedup)
    (List.sorted_insertionSort strLe l₂.dedup)

theorem pySetSeq_inter_comm (ord : List String → List String)
    (a b : List String) :
    pySetSeq ord (a.filter (fun n => n ∈ b)) =
      pySetSeq ord (b.filter (fun n => n ∈ a)) := by
  unfold pySetSeq
  congr 1
  apply sortedKeys_congr
  intro n
  simp [List.mem_filter, and_comm]

theorem pySetSeq_filterMap_dget {β : Type} (ord : List String → List String)
    (hord : validOrd ord) (c : StateDict) (p : String → Bool)
    (F : String → JVal → β) (G : String → β) (hFG : ∀ n v, F n v = G n) :
    (pySetSeq ord ((dkeys c).filter p)).filterMap (fun n => (dget c n).map (F n))
      = (pySetSeq ord ((dkeys c).filter p)).map G := by
  apply filterMap_eq_map_of
  intro n hn
  have hmem : n ∈ (dkeys c).filter p := (mem_pySetSeq ord hord _ n).mp hn
  obtain ⟨v, hv⟩ := dget_isSome_of_mem c n (List.mem_of_mem_filter hmem)
  rw [hv]
  simp [hFG]

theorem removed_swap (ord : List String → List String) (c1 c2 : StateDict) :
    (removedClassChanges ord c1 c2).map swapKey =
      (addedClassChanges ord c2 c1).map changeKey := by
  unfold removedClassChanges addedClassChanges
  rw [List.map_filterMap, List.map_filterMap]
  congr 1
  funext n
  cases dget c1 n <;>
    simp [mkChange, swapKey, changeKey, swapCT_removed]

theorem added_swap (ord : List String → List String) (c1 c2 : StateDict) :
    (addedClassChanges ord c1 c2).map swapKey =
      (removedClassChanges ord c2 c1).map changeKey := by
  unfold removedClassChanges addedClassChanges
  rw [List.map_filterMap, List.map_filterMap]
  congr 1
  funext n
  cases dget c2 n <;>
    simp [mkChange, swapKey, changeKey, swapCT_added]

theorem subRemoved_swap (ord : List String → List String) (comp noun cn : String)
    (m1 m2 : StateDict) :
    (subRemoved ord comp noun cn m1 m2).map swapKey =
      (subAdded ord comp noun cn m2 m1).map changeKey := by
  unfold subRemoved subAdded
  rw [List.map_filterMap, List.map_filterMap]
  congr 1
  funext n
  cases dget m1 n <;>
    simp [mkChange, swapKey, changeKey, swapCT_removed]

theorem subAdded_swap (ord : List String → List String) (comp noun cn : String)
    (m1 m2 : StateDict) :
    (subAdded ord comp noun cn m1 m2).map swapKey =
      (subRemoved ord comp noun cn m2 m1).map changeKey := by
  unfold subRemoved subAdded
  rw [List.map_filterMap, List.map_filterMap]
  congr 1
  funext n
  cases dget m2 n <;>
    simp [mkChange, swapKey, changeKey, swapCT_added]

theorem subModified_swap (ord : List String → List String) (comp noun cn : String)
    (m1 m2 : StateDict) :
    (subModified ord comp noun cn m1 m2).map swapKey =
      (subModified ord comp noun cn m2 m1).map changeKey := by
  unfold subModified
  rw [List.map_filterMap, List.map_filterMap,
    pySetSeq_inter_comm ord (dkeys m1) (dkeys m2)]
  congr 1
  funext n
  cases h1 : dget m1 n <;> cases h2 : dget m2 n <;>
    simp only [h1, h2]
  · rfl
  · rfl
  · rfl
  · rw [pyEq_symm]
    split <;> simp [mkChange, swapKey, changeKey, swapCT_modified]

theorem perm_six {α : Type} (A B C D E F : List α) :
    (B ++ A ++ C ++ E ++ D ++ F).Perm (A ++ B ++ C ++ D ++ E ++ F) := by
  have h1 : (B ++ A ++ C ++ E ++ D ++ F).Perm (A ++ B ++ C ++ E ++ D ++ F) :=
    ((((List.perm_append_comm.append_right C).append_right E).append_right
      D).append_right F)
  refine h1.trans ?_
  have h2 : (A ++ B ++ C ++ E ++ D).Perm (A ++ B ++ C ++ D ++ E) := by
    rw [List.append_assoc (A ++ B ++ C) E D, List.append_assoc (A ++ B ++ C) D E]
    exact List.Perm.append_left (A ++ B ++ C) List.perm_append_comm
  exact h2.append_right F

theorem classPair_swap (ord : List String → List String) (cn : String)
    (cd1 cd2 : JVal) :
    ((classPairChanges ord cn cd1 cd2).map swapKey).Perm
      ((classPairChanges ord cn cd2 cd1).map changeKey) := by
  unfold classPairChanges
  rw [pyEq_symm cd1 cd2]
  by_cases hg : pyEq cd2 cd1 = true
  · simp [hg]
  · rw [if_neg hg, if_neg hg]
    simp only [List.map_append]
    rw [subRemoved_swap, subAdded_swap, subModified_swap,
      subRemoved_swap, subAdded_swap, subModified_swap]
    exact perm_six
      ((subRemoved ord "fields" "Field" cn (subMap cd2 "fields") (subMap cd1 "fields")).map changeKey)
      ((subAdded ord "fields" "Field" cn (subMap cd2 "fields") (subMap cd1 "fields")).map changeKey)
      ((subModified ord "fields" "Field" cn (subMap cd2 "fields") (subMap cd1 "fields")).map changeKey)
      ((subRemoved ord "methods" "Method" cn (subMap cd2 "methods") (subMap cd1 "methods")).map changeKey)
      ((subAdded ord "methods" "Method" cn (subMap cd2 "methods") (subMap cd1 "methods")).map changeKey)
      ((subModified ord "methods" "Method" cn (subMap cd2 "methods") (subMap cd1 "methods")).map changeKey)

theorem common_swap (ord : List String → List String) (c1 c2 : StateDict) :
    ((commonClassChanges ord c1 c2).map swapKey).Perm
      ((commonClassChanges ord c2 c1).map changeKey) := by
  unfold commonClassChanges
  rw [List.map_flatMap, List.map_flatMap,
    pySetSeq_inter_comm ord (dkeys c1) (dkeys c2)]
  apply List.Perm.flatMap_left
  intro n _
  cases h1 : dget c1 n <;> cases h2 : dget c2 n <;> simp only [h1, h2]
  · exact List.Perm.refl _
  · exact List.Perm.refl _
  · exact List.Perm.refl _
  · exact classPair_swap ord n _ _

theorem build_swap (s1 s2 : StateDict) :
    (buildStatusChanges s1 s2).map swapKey =
      (buildStatusChanges s2 s1).map changeKey := by
  unfold buildStatusChanges
  rw [pyEq_symm (buildValue s1) (buildValue s2)]
  split <;> simp [mkChange, swapKey, changeKey, swapCT_modified]

theorem filter_not_mem_self (l : List String) :
    l.filter (fun n => n ∉ l) = [] := by
  apply List.filter_eq_nil_iff.mpr
  intro a ha
  simp [ha]

theorem pySetSeq_nil (ord : List String → List String) (hord : validOrd ord) :
    pySetSeq ord [] = [] :=
  (hord []).eq_nil

/-- C8: the diff of a state with itself has no changes, and the diffs of a
pair in the two orders carry the same `(change type, component, identifier)`
keys up to swapping `added` with `removed` (`modified` keys unchanged) —
stated for every legal Python set-iteration order.  The source file itself
cannot run (missing comma in the summary literal, a `SyntaxError`); this is
the behavior of the comma-repaired code. -/
theorem diff_idempotent_symm (ord : List String → List String)
    (hord : validOrd ord) (s s1 s2 : StateDict) :
    (diff_states ord s s).changes = [] ∧
    ((diff_states ord s1 s2).changes.map swapKey).Perm
      ((diff_states ord s2 s1).changes.map changeKey) := by
  constructor
  · show removedClassChanges ord (classesOf s) (classesOf s)
      ++ addedClassChanges ord (classesOf s) (classesOf s)
      ++ commonClassChanges ord (classesOf s) (classesOf s)
      ++ buildStatusChanges s s = []
    have hR : removedClassChanges ord (classesOf s) (classesOf s) = [] := by
      unfold removedClassChanges
      rw [filter_not_mem_self, pySetSeq_nil ord hord]
      rfl
    have hA : addedClassChanges ord (classesOf s) (classesOf s) = [] := by
      unfold addedClassChanges
      rw [filter_not_mem_self, pySetSeq_nil ord hord]
      rfl
    have hM : commonClassChanges ord (classesOf s) (classesOf s) = [] := by
      unfold commonClassChanges
      have hbody : ∀ n ∈ pySetSeq ord
          ((dkeys (classesOf s)).filter (fun n => n ∈ dkeys (classesOf s))),
          (match dget (classesOf s) n, dget (classesOf s) n with
            | some cd1, some cd2 => classPairChanges ord n cd1 cd2
            | _, _ => ([] : List DiffChange)) = [] := by
        intro n _
        cases hg : dget (classesOf s) n
        · rfl
        · unfold classPairChanges
          dsimp only
          rw [if_pos (pyEq_refl _)]
      rw [List.flatMap_congr hbody]
      simp
    have hB : buildStatusChanges s s = [] := by
      unfold buildStatusChanges
      rw [if_pos (pyEq_refl _)]
    rw [hR, hA, hM, hB]
    rfl
  · show ((removedClassChanges ord (classesOf s1) (classesOf s2)
      ++ addedClassChanges ord (classesOf s1) (classesOf s2)
      ++ commonClassChanges ord (classesOf s1) (classesOf s2)
      ++ buildStatusChanges s1 s2).map swapKey).Perm
      ((removedClassChanges ord (classesOf s2) (classesOf s1)
      ++ addedClassChanges ord (classesOf s2) (classesOf s1)
      ++ commonClassChanges ord (classesOf s2) (classesOf s1)
      ++ buildStatusChanges s2 s1).map changeKey)
    simp only [List.map_append]
    rw [removed_swap, added_swap, build_swap]
    refine List.Perm.append ?_ (List.Perm.refl _)
    refine List.Perm.append ?_ (common_swap ord (classesOf s1) (classesOf s2))
    exact List.perm_append_comm

/-- Witness for C8 at the identity iteration order and concrete states. -/
theorem diff_idempotent_symm_witness :
    (diff_states (fun l => l) [("java_classes", JVal.list [.dict [("name",
      JVal.str "A"), ("fields", JVal.list [])]])]
      [("java_classes", JVal.list [.dict [("name", JVal.str "A"),
        ("fields", JVal.list [])]])]).changes = [] ∧
    ((diff_states (fun l => l) [] [("java_classes", JVal.list [.dict [("name",
      JVal.str "A"), ("fields", JVal.list [])]])]).changes.map swapKey).Perm
      ((diff_states (fun l => l) [("java_classes", JVal.list [.dict [("name",
        JVal.str "A"), ("fields", JVal.list [])]])] []).changes.map changeKey) :=
  ⟨(diff_idempotent_symm (fun l => l) (fun l => List.Perm.refl l)
      [("java_classes", JVal.list [.dict [("name", JVal.str "A"),
        ("fields", JVal.list [])]])] [] []).1,
   (diff_idempotent_symm (fun l => l) (fun l => List.Perm.refl l) []
      [] [("java_classes", JVal.list [.dict [("name", JVal.str "A"),
        ("fields", JVal.list [])]])]).2⟩

/-- Modelled from the spec's ordering policy (section 4.2), with one
correction parameterized out: the policy block for a field/method map pair —
removals, then additions, then modifications of entries present in both,
each enumerated in the set-iteration order `ord` (the spec says "sorted keys";
the code iterates Python sets, whose order is not sorted). -/
def specSubBlock (ord : List String → List String) (comp cn : String)
    (m1 m2 : StateDict) : List (String × String × String) :=
  (pySetSeq ord ((dkeys m1).filter (fun n => n ∉ dkeys m2))).map
    (fun x => ("removed", comp, cn ++ "." ++ x))
  ++ (pySetSeq ord ((dkeys m2).filter (fun n => n ∉ dkeys m1))).map
    (fun x => ("added", comp, cn ++ "." ++ x))
  ++ (pySetSeq ord ((dkeys m1).filter (fun n => n ∈ dkeys m2))).filterMap
    (fun x =>
      match dget m1 x, dget m2 x with
      | some v1, some v2 =>
        if pyEq v1 v2 then none else some ("modified", comp, cn ++ "." ++ x)
      | _, _ => none)

/-- The policy block for one class present in both states: field changes then
method changes, nothing when the two records compare equal. -/
def specClassBlock (ord : List String → List String) (cn : String) :
    Option JVal → Option JVal → List (String × String × String)
  | some cd1, some cd2 =>
    if pyEq cd1 cd2 then []
    else
      specSubBlock ord "fields" cn (subMap cd1 "fields") (subMap cd2 "fields")
      ++ specSubBlock ord "methods" cn (subMap cd1 "methods") (subMap cd2 "methods")
  | _, _ => []

/-- The spec's full emission order: removed classes, added classes, then for
each class present in both (in the iteration order `ord`) field removals,
additions, modifications and method removals, additions, modifications, with
the build-status change last. -/
def spec_policy_order (ord : List String → List String) (s1 s2 : StateDict) :
    List (String × String × String) :=
  (pySetSeq ord ((dkeys (classesOf s1)).filter
      (fun n => n ∉ dkeys (classesOf s2)))).map
    (fun n => ("removed", "java_classes", n))
  ++ (pySetSeq ord ((dkeys (classesOf s2)).filter
      (fun n => n ∉ dkeys (classesOf s1)))).map
    (fun n => ("added", "java_classes", n))
  ++ (pySetSeq ord ((dkeys (classesOf s1)).filter
      (fun n => n ∈ dkeys (classesOf s2)))).flatMap
    (fun n => specClassBlock ord n (dget (classesOf s1) n) (dget (classesOf s2) n))
  ++ (if pyEq (buildValue s1) (buildValue s2) then []
      else [("modified", "build_status", "build_status.build_status")])

theorem subRemoved_key (ord : List String → List String)
    (hord : validOrd ord) (comp noun cn : String) (m1 m2 : StateDict) :
    (subRemoved ord comp noun cn m1 m2).map changeKey =
      (pySetSeq ord ((dkeys m1).filter (fun n => n ∉ dkeys m2))).map
        (fun x => ("removed", comp, cn ++ "." ++ x)) := by
  unfold subRemoved
  rw [List.map_filterMap]
  have := pySetSeq_filterMap_dget ord hord m1
    (fun n => decide (n ∉ dkeys m2))
    (fun n v => changeKey (mkChange "removed" comp (cn ++ "." ++ n) (some v) none
      (noun ++ " " ++ n ++ " removed from class " ++ cn)))
    (fun n => ("removed", comp, cn ++ "." ++ n)) (fun n v => rfl)
  rw [← this]
  congr 1
  funext n
  cases dget m1 n <;> rfl

theorem subAdded_key (ord : List String → List String)
    (hord : validOrd ord) (comp noun cn : String) (m1 m2 : StateDict) :
    (subAdded ord comp noun cn m1 m2).map changeKey =
      (pySetSeq ord ((dkeys m2).filter (fun n => n ∉ dkeys m1))).map
        (fun x => ("added", comp, cn ++ "." ++ x)) := by
  unfold subAdded
  rw [List.map_filterMap]
  have := pySetSeq_filterMap_dget ord hord m2
    (fun n => decide (n ∉ dkeys m1))
    (fun n v => changeKey (mkChange "added" comp (cn ++ "." ++ n) none (some v)
      (noun ++ " " ++ n ++ " added to class " ++ cn)))
    (fun n => ("added", comp, cn ++ "." ++ n)) (fun n v => rfl)
  rw [← this]
  congr 1
  funext n
  cases dget m2 n <;> rfl

theorem subModified_key (ord : List String → List String) (comp noun cn : String)
    (m1 m2 : StateDict) :
    (subModified ord comp noun cn m1 m2).map changeKey =
      (pySetSeq ord ((dkeys m1).filter (fun n => n ∈ dkeys m2))).filterMap
        (fun x =>
          match dget m1 x, dget m2 x with
          | some v1, some v2 =>
            if pyEq v1 v2 then none
            else some (("modified", comp, cn ++ "." ++ x) : String × String × String)
          | _, _ => none) := by
  unfold subModified
  rw [List.map_filterMap]
  congr 1
  funext n
  cases dget m1 n <;> cases dget m2 n <;> simp only []
  · rfl
  · rfl
  · rfl
  · split <;> rfl

theorem removedClass_key (ord : List String → List String)
    (hord : validOrd ord) (c1 c2 : StateDict) :
    (removedClassChanges ord c1 c2).map changeKey =
      (pySetSeq ord ((dkeys c1).filter (fun n => n ∉ dkeys c2))).map
        (fun n => ("removed", "java_classes", n)) := by
  unfold removedClassChanges
  rw [List.map_filterMap]
  have := pySetSeq_filterMap_dget ord hord c1
    (fun n => decide (n ∉ dkeys c2))
    (fun n v => changeKey (mkChange "removed" "java_classes" n (some v) none
      ("Class " ++ n ++ " removed")))
    (fun n => ("removed", "java_classes", n)) (fun n v => rfl)
  rw [← this]
  congr 1
  funext n
  cases dget c1 n <;> rfl

theorem addedClass_key (ord : List String → List String)
    (hord : validOrd ord) (c1 c2 : StateDict) :
    (addedClassChanges ord c1 c2).map changeKey =
      (pySetSeq ord ((dkeys c2).filter (fun n => n ∉ dkeys c1))).map
        (fun n => ("added", "java_classes", n)) := by
  unfold addedClassChanges
  rw [List.map_filterMap]
  have := pySetSeq_filterMap_dget ord hord c2
    (fun n => decide (n ∉ dkeys c1))
    (fun n v => changeKey (mkChange "added" "java_classes" n none (some v)
      ("Class " ++ n ++ " added")))
    (fun n => ("added", "java_classes", n)) (fun n v => rfl)
  rw [← this]
  congr 1
  funext n
  cases dget c2 n <;> rfl

theorem commonClass_key (ord : List String → List String)
    (hord : validOrd ord) (c1 c2 : StateDict) :
    (commonClassChanges ord c1 c2).map changeKey =
      (pySetSeq ord ((dkeys c1).filter (fun n => n ∈ dkeys c2))).flatMap
        (fun n => specClassBlock ord n (dget c1 n) (dget c2 n)) := by
  unfold commonClassChanges
  rw [List.map_flatMap]
  apply List.flatMap_congr
  intro n _
  cases h1 : dget c1 n <;> cases h2 : dget c2 n <;>
    simp only [specClassBlock]
  · rfl
  · rfl
  · rfl
  · unfold classPairChanges
    split
    · rfl
    · simp only [List.map_append]
      rw [subRemoved_key ord hord, subAdded_key ord hord, subModified_key,
        subRemoved_key ord hord, subAdded_key ord hord, subModified_key]
      unfold specSubBlock
      simp [List.append_assoc]

theorem build_key (s1 s2 : StateDict) :
    (buildStatusChanges s1 s2).map changeKey =
      (if pyEq (buildValue s1) (buildValue s2) then []
       else [(("modified", "build_status", "build_status.build_status") :
         String × String × String)]) := by
  unfold buildStatusChanges
  split <;> simp [mkChange, changeKey]

/-- C7 amended: the changes of `diff_states` project, key for key and in
order, onto the spec's emission policy with the class/member iteration taken
from the actual Python set order. -/
theorem diff_order_policy (ord : List String → List String)
    (hord : validOrd ord) (s1 s2 : StateDict) :
    (diff_states ord s1 s2).changes.map changeKey = spec_policy_order ord s1 s2 := by
  show (removedClassChanges ord (classesOf s1) (classesOf s2)
      ++ addedClassChanges ord (classesOf s1) (classesOf s2)
      ++ commonClassChanges ord (classesOf s1) (classesOf s2)
      ++ buildStatusChanges s1 s2).map changeKey = spec_policy_order ord s1 s2
  unfold spec_policy_order
  simp only [List.map_append]
  rw [removedClass_key ord hord, addedClass_key ord hord,
    commonClass_key ord hord, build_key]

/-- A class record with one integer-valued field. -/
def diffCexClass (cls fld : String) (v : Int) : JVal :=
  .dict [("name", .str cls),
    ("fields", .list [.dict [("name", .str fld), ("type", .str "int"),
      ("value", .int v)]]),
    ("methods", .list [])]

/-- Two classes `A` and `B`, each with one field. -/
def diffCexS1 : StateDict :=
  [("java_classes", .list [diffCexClass "A" "x" 1, diffCexClass "B" "y" 1])]

/-- The same two classes with both field values changed. -/
def diffCexS2 : StateDict :=
  [("java_classes", .list [diffCexClass "A" "x" 2, diffCexClass "B" "y" 2])]

/-- C7 counterexample: reversal is a legal Python set-iteration order (the
iteration always permutes the element set), and under it the common classes
are visited `B` before `A` — the emitted identifiers are not in sorted key
order, and the same two inputs give a different change list than under the
identity order, refuting both the claimed sorted iteration and the claimed
input-determinism of the order. -/
theorem diff_order_cex :
    validOrd (fun l => l.reverse) ∧ validOrd (fun l => l) ∧
    (diff_states (fun l => l.reverse) diffCexS1 diffCexS2).changes.map
      DiffChange.identifier = ["B.y", "A.x"] ∧
    (diff_states (fun l => l) diffCexS1 diffCexS2).changes.map
      DiffChange.identifier = ["A.x", "B.y"] :=
  ⟨fun l => l.reverse_perm, fun l => List.Perm.refl l, by decide, by decide⟩

/-- Witness for the amended C7 theorem at the identity order and the concrete
two-class states. -/
theorem diff_order_policy_witness :
    (diff_states (fun l => l) diffCexS1 diffCexS2).changes.map changeKey =
      spec_policy_order (fun l => l) diffCexS1 diffCexS2 :=
  diff_order_policy (fun l => l) (fun l => List.Perm.refl l) diffCexS1 diffCexS2
